import Mathlib

/-! Windows dialog adapters (`dlgs_windows.go`, `api_windows.go`).

A shallow embedding of the Windows back end of the dialog package.

* A Go `string` is the list of its bytes; a `[]uint16` is the list of its code units.
* A pointer to a UTF-16 buffer is `none` for nil and `some buf` for a pointer to `buf`.
  A `uintptr` that holds such an address is modelled the same way.
* The operating system is a record of answers (`Native`); every function that
  talks to it also returns the list of native calls it made, in order. The lazy
  lookup of `GetForegroundWindow` in `user32.dll` is taken to succeed.
* A Go `panic` is `Except.error`.
* `int` is 64 bits wide (windows/amd64, windows/arm64).
* `windows.UTF16FromString` and `syscall.UTF16PtrFromString` are those of Go 1.21
  and later, which read the string as WTF-8; `utf16.Encode([]rune(s))` does not.
-/

namespace Dialog

/-! ## Strings -/

/-- A Go string: its bytes, each below 256. -/
abbrev GoString := List Nat

/-- The bytes of an ASCII string literal of the source. -/
def lit (s : String) : GoString := s.toList.map Char.toNat

/-- The rune `utf8.RuneError`, U+FFFD. -/
def RuneError : Nat := 0xFFFD

/-- A UTF-8 continuation byte, `0x80..0xBF`. -/
def isCont (b : Nat) : Bool := decide (0x80 ≤ b) && decide (b ≤ 0xBF)

/-- The second byte allowed after the lead byte `b0` of a three or four byte
sequence (the `acceptRanges` table of `unicode/utf8`). -/
def secondOk (b0 b1 : Nat) : Bool :=
  if b0 = 0xE0 then decide (0xA0 ≤ b1) && decide (b1 ≤ 0xBF)
  else if b0 = 0xED then decide (0x80 ≤ b1) && decide (b1 ≤ 0x9F)
  else if b0 = 0xF0 then decide (0x90 ≤ b1) && decide (b1 ≤ 0xBF)
  else if b0 = 0xF4 then decide (0x80 ≤ b1) && decide (b1 ≤ 0x8F)
  else isCont b1

/-- The library function `utf8.DecodeRuneInString`: the first rune of `s` and the
number of bytes it takes; `(RuneError, 0)` for the empty string and
`(RuneError, 1)` for a byte that starts no well-formed sequence. -/
def DecodeRuneInString : GoString → Nat × Nat
  | [] => (RuneError, 0)
  | b0 :: tl =>
    if b0 < 0x80 then (b0, 1)
    else if 0xC2 ≤ b0 ∧ b0 ≤ 0xDF then
      match tl with
      | b1 :: _ =>
        if isCont b1 then (((b0 &&& 0x1F) <<< 6) ||| (b1 &&& 0x3F), 2) else (RuneError, 1)
      | [] => (RuneError, 1)
    else if 0xE0 ≤ b0 ∧ b0 ≤ 0xEF then
      match tl with
      | b1 :: b2 :: _ =>
        if secondOk b0 b1 && isCont b2 then
          (((b0 &&& 0x0F) <<< 12) ||| ((b1 &&& 0x3F) <<< 6) ||| (b2 &&& 0x3F), 3)
        else (RuneError, 1)
      | _ => (RuneError, 1)
    else if 0xF0 ≤ b0 ∧ b0 ≤ 0xF4 then
      match tl with
      | b1 :: b2 :: b3 :: _ =>
        if secondOk b0 b1 && isCont b2 && isCont b3 then
          (((b0 &&& 0x07) <<< 18) ||| ((b1 &&& 0x3F) <<< 12) ||| ((b2 &&& 0x3F) <<< 6)
            ||| (b3 &&& 0x3F), 4)
        else (RuneError, 1)
      | _ => (RuneError, 1)
    else (RuneError, 1)

/-- The decoding loop of `[]rune(s)`: `skip` bytes of the rune decoded last are
still to be passed over; at `skip = 0` the next rune is decoded at this byte. -/
def runesFrom : Nat → GoString → List Nat
  | _, [] => []
  | skip + 1, _ :: tl => runesFrom skip tl
  | 0, b0 :: tl =>
    (DecodeRuneInString (b0 :: tl)).1 :: runesFrom ((DecodeRuneInString (b0 :: tl)).2 - 1) tl

/-- The conversion `[]rune(s)`: UTF-8 decoding in which every byte that does not
start a well-formed sequence yields `RuneError` and is passed over alone. -/
def runes (s : GoString) : List Nat := runesFrom 0 s

/-- The code units `utf16.Encode` appends for one rune. -/
def encodeRune (r : Nat) : List Nat :=
  if r < 0xD800 ∨ (0xE000 ≤ r ∧ r < 0x10000) then [r]
  else if 0x10000 ≤ r ∧ r ≤ 0x10FFFF then
    [0xD800 + (((r - 0x10000) >>> 10) &&& 0x3FF), 0xDC00 + ((r - 0x10000) &&& 0x3FF)]
  else [RuneError]

/-- The library function `utf16.Encode`. -/
def utf16Encode : List Nat → List Nat
  | [] => []
  | r :: rs => encodeRune r ++ utf16Encode rs

/-- Source: `utf16FromStringWithoutNullTermination`, `utf16.Encode([]rune(s))`. -/
def utf16FromStringWithoutNullTermination (s : GoString) : List Nat :=
  utf16Encode (runes s)

/-- The test of `syscall.encodeWTF16` for a surrogate in WTF-8 at the front of
`sc`, `len(sc) >= 3 && sc[0] == 0xED && 0xA0 <= sc[1] <= 0xBF && 0x80 <= sc[2] <= 0xBF`,
and the unit it appends then,
`uint16(rune(sc[0]&mask3)<<12 + rune(sc[1]&maskx)<<6 + rune(sc[2]&maskx))`. -/
def wtf8Surrogate : GoString → Option Nat
  | b0 :: b1 :: b2 :: _ =>
    if b0 = 0xED ∧ 0xA0 ≤ b1 ∧ b1 ≤ 0xBF ∧ 0x80 ≤ b2 ∧ b2 ≤ 0xBF then
      some ((((b0 &&& 0x0F) <<< 12) + ((b1 &&& 0x3F) <<< 6) + (b2 &&& 0x3F)) % 2 ^ 16)
    else none
  | _ => none

/-- The loop of `syscall.encodeWTF16`: at `skip = 0` the rune at this byte is
decoded; if it is `RuneError` and a WTF-8 surrogate stands here, the surrogate is
appended and three bytes are passed; otherwise `utf16.AppendRune` appends the
rune and its bytes are passed. -/
def encodeWTF16From : Nat → GoString → List Nat
  | _, [] => []
  | skip + 1, _ :: tl => encodeWTF16From skip tl
  | 0, b0 :: tl =>
    if (DecodeRuneInString (b0 :: tl)).1 = RuneError ∧ (wtf8Surrogate (b0 :: tl)).isSome then
      (wtf8Surrogate (b0 :: tl)).getD 0 :: encodeWTF16From 2 tl
    else
      encodeRune (DecodeRuneInString (b0 :: tl)).1 ++
        encodeWTF16From ((DecodeRuneInString (b0 :: tl)).2 - 1) tl

/-- The library function `syscall.encodeWTF16`: the UTF-16 encoding of a string
read as WTF-8, possibly with unpaired surrogates. -/
def encodeWTF16 (s : GoString) : List Nat := encodeWTF16From 0 s

/-- The library function `syscall.UTF16FromString`, to which
`windows.UTF16FromString` delegates: a string with a NUL byte is rejected with
`EINVAL`, any other is encoded by `encodeWTF16` and a 0 is appended. -/
def UTF16FromString (s : GoString) : Except String (List Nat) :=
  if 0 ∈ s then .error "invalid argument"
  else .ok (encodeWTF16 s ++ [0])

/-- A pointer to a UTF-16 buffer: nil, or the buffer pointed to. -/
abbrev Ptr := Option (List Nat)

/-- The library function `UTF16PtrFromString`: nil and the error, or a pointer to
the first unit of the encoded string. -/
def UTF16PtrFromString (s : GoString) : Except String Ptr :=
  match UTF16FromString s with
  | .error e => .error e
  | .ok a => .ok (some a)

/-! ## Formatting of error codes -/

/-- The digit table `ldigits` of `fmt`, `"0123456789abcdefx"`. -/
def ldigits : GoString := lit "0123456789abcdefx"

/-- The digit loop of `fmt.fmtInteger` for base 16: while `u >= 16` the digit
`ldigits[u & 0xF]` is put in front and `u` is shifted right by 4; the last digit is
`ldigits[u]`. The first argument bounds the number of rounds; a 64-bit `u` needs 15. -/
def fmtHexLoop : Nat → Nat → List Nat → List Nat
  | 0, u, buf => ldigits.getD u 0 :: buf
  | fuel + 1, u, buf =>
    if 16 ≤ u then fmtHexLoop fuel (u >>> 4) (ldigits.getD (u &&& 0xF) 0 :: buf)
    else ldigits.getD u 0 :: buf

/-- The verb `%#x` of `fmt.Sprintf` at an `int`: the digits of the magnitude, in
front of them `0x`, in front of that `-` for a negative number. -/
def sprintfSharpX (v : Int) : GoString :=
  (if v < 0 then lit "-" else []) ++ lit "0x" ++ fmtHexLoop 16 (v.natAbs % 2 ^ 64) []

/-- Source: `type WinDlgError int`. -/
abbrev WinDlgError := Int

/-- Source: `WinDlgError.Error`. -/
def WinDlgError.Error (e : WinDlgError) : GoString :=
  lit "CommDlgExtendedError: " ++ sprintfSharpX e

/-- A value of the interface `error` as these functions return it: the
package variable `ErrCancelled` or a `WinDlgError`. -/
inductive GoError where
  | ErrCancelled
  | WinDlgError (e : WinDlgError)
  deriving DecidableEq

/-- The conversion of a `uint32` to the 64-bit `int`. -/
def intOfUint32 (e : Nat) : Int :=
  if e % 2 ^ 32 % 2 ^ 64 < 2 ^ 63 then ((e % 2 ^ 32 % 2 ^ 64 : Nat) : Int)
  else ((e % 2 ^ 32 % 2 ^ 64 : Nat) : Int) - 2 ^ 64

/-! ## Builders and native structures -/

/-- Source: `Dlg` (its `Title` field is all these functions read). -/
structure Dlg where
  Title : GoString
  deriving DecidableEq

/-- Source: `FileFilter`, a description and its extensions. -/
structure FileFilter where
  Desc : GoString
  Extensions : List GoString
  deriving DecidableEq

/-- Source: `FileBuilder`. -/
structure FileBuilder where
  Dlg : Dlg
  StartDir : GoString
  StartFile : GoString
  Filters : List FileFilter
  deriving DecidableEq

/-- Source: `DirectoryBuilder`. -/
structure DirectoryBuilder where
  Dlg : Dlg
  StartDir : GoString
  deriving DecidableEq

/-- The fields of `w32.OPENFILENAME` that `openfile` writes. `File` is the buffer
that the pointer `File` addresses; it is never nil. -/
structure OPENFILENAME where
  StructSize : Nat
  Owner : Nat
  Filter : Ptr
  File : List Nat
  MaxFile : Nat
  InitialDir : Ptr
  Title : Ptr
  Flags : Nat
  deriving DecidableEq

/-- The functions that can be installed as `BROWSEINFO.CallbackFunc`. -/
inductive Callback where
  | callbackDefaultDir
  deriving DecidableEq

/-- The fields of `w32.BROWSEINFO` that `selectdir` writes. `CallbackFunc` is
`none` for 0; `LParam` is `none` for 0 and otherwise the buffer at that address. -/
structure BROWSEINFO where
  Owner : Nat
  Title : Ptr
  Flags : Nat
  CallbackFunc : Option Callback
  LParam : Ptr
  deriving DecidableEq

/-- Source: `filedlg`. -/
structure filedlg where
  filename : GoString
  opf : OPENFILENAME
  deriving DecidableEq

/-- Source: `dirdlg`. -/
structure dirdlg where
  bi : BROWSEINFO
  deriving DecidableEq

/-- The constant `w32.OFN_OVERWRITEPROMPT`. -/
def OFN_OVERWRITEPROMPT : Nat := 0x2
/-- The constant `w32.OFN_NOCHANGEDIR`. -/
def OFN_NOCHANGEDIR : Nat := 0x8
/-- The constant `w32.OFN_FILEMUSTEXIST`. -/
def OFN_FILEMUSTEXIST : Nat := 0x1000
/-- The constant `w32.BIF_RETURNONLYFSDIRS`. -/
def BIF_RETURNONLYFSDIRS : Nat := 0x1
/-- The constant `w32.BIF_NEWDIALOGSTYLE`. -/
def BIF_NEWDIALOGSTYLE : Nat := 0x40
/-- The constant `w32.WM_USER`. -/
def WM_USER : Nat := 0x400
/-- The constant `w32.TRUE`. -/
def TRUE : Nat := 1
/-- Source: `bffm_INITIALIZED`. -/
def bffm_INITIALIZED : Nat := 1
/-- Source: `bffm_SETSELECTIONW`. -/
def bffm_SETSELECTIONW : Nat := WM_USER + 103
/-- Source: `bffm_SETSELECTION`. -/
def bffm_SETSELECTION : Nat := bffm_SETSELECTIONW

/-! ## The operating system -/

/-- One call of a native function, with its arguments. -/
inductive Call where
  | GetForegroundWindow
  | GetOpenFileName (opf : OPENFILENAME)
  | GetSaveFileName (opf : OPENFILENAME)
  | CommDlgExtendedError
  | SHBrowseForFolder (bi : BROWSEINFO)
  | SHGetPathFromIDList (idl : Nat)
  | SendMessage (hwnd msg wParam : Nat) (lParam : Ptr)
  deriving DecidableEq

/-- The answers of the operating system during one dialog call. The two file
dialogs answer with their result and with the content they leave in the buffer
`opf.File`. -/
structure Native where
  foregroundWindow : Nat
  sizeofOPENFILENAME : Nat
  getOpenFileName : OPENFILENAME → Bool × List Nat
  getSaveFileName : OPENFILENAME → Bool × List Nat
  commDlgExtendedError : Nat
  shBrowseForFolder : BROWSEINFO → Nat
  shGetPathFromIDList : Nat → GoString
  sendMessage : Nat → Nat → Nat → Ptr → Nat

/-- Source: `_GetForegroundWindow` (`api_windows.go`). -/
def _GetForegroundWindow (w : Native) : Nat × List Call :=
  (w.foregroundWindow, [Call.GetForegroundWindow])

/-- The native function `w32.CommDlgExtendedError`, a `uint32`. -/
def CommDlgExtendedError (w : Native) : Nat × List Call :=
  (w.commDlgExtendedError % 2 ^ 32, [Call.CommDlgExtendedError])

/-- Source: `err`. -/
def err (w : Native) : GoError × List Call :=
  let e := CommDlgExtendedError w
  if e.1 = 0 then (GoError.ErrCancelled, e.2)
  else (GoError.WinDlgError (intOfUint32 e.1), e.2)

/-! ## File dialogs -/

/-- Source: `filedlg.Filename`. -/
def filedlg.Filename (d : filedlg) : GoString := d.filename

/-- The inner loop of `openfile`: one extension appended to `filters`, the
encoding of `fmt.Sprintf("*.%s;", ext)` and then a 0. -/
def appendExtension (filters : List Nat) (ext : GoString) : List Nat :=
  (filters ++ utf16FromStringWithoutNullTermination (lit "*." ++ ext ++ lit ";")) ++ [0]

/-- The body of the outer loop of `openfile`: one filter appended to `filters`. -/
def appendFilter (filters : List Nat) (filt : FileFilter) : List Nat :=
  (filt.Extensions.foldl appendExtension
    ((filters ++ utf16FromStringWithoutNullTermination filt.Desc) ++ [0])) ++ [0]

/-- The slice `filters` of `openfile` after its loop over `b.Filters`. -/
def buildFilters (fs : List FileFilter) : List Nat := fs.foldl appendFilter []

/-- The end of `openfile`: a non-empty `filters` gets two more 0 units and
`opf.Filter` points to it; an empty one leaves the pointer nil. -/
def attachFilters (opf : OPENFILENAME) (filters : List Nat) : OPENFILENAME :=
  if 0 < filters.length then { opf with Filter := some (filters ++ [0, 0]) } else opf

/-- Source: `openfile`. The result is the dialog and the native calls made, or
the message of the panic. -/
def openfile (w : Native) (flags : Nat) (b : FileBuilder) : Except String (filedlg × List Call) :=
  let owner := _GetForegroundWindow w
  match UTF16FromString b.StartFile with
  | .error e => .error ("dialog: UTF16FromString failed: " ++ e)
  | .ok startFile =>
    let opf0 : OPENFILENAME :=
      { StructSize := w.sizeofOPENFILENAME % 2 ^ 32, Owner := owner.1, Filter := none,
        File := startFile, MaxFile := startFile.length % 2 ^ 32, InitialDir := none,
        Title := none, Flags := flags % 2 ^ 32 }
    match (if b.StartDir ≠ [] then
        match UTF16PtrFromString b.StartDir with
        | .error e => .error ("dialog: UTF16PtrFromString failed: " ++ e)
        | .ok initialDir => .ok { opf0 with InitialDir := initialDir }
      else (.ok opf0 : Except String OPENFILENAME)) with
    | .error e => .error e
    | .ok opf1 =>
      match (if b.Dlg.Title ≠ [] then
          match UTF16PtrFromString b.Dlg.Title with
          | .error e => .error ("dialog: UTF16PtrFromString failed: " ++ e)
          | .ok title => .ok { opf1 with Title := title }
        else (.ok opf1 : Except String OPENFILENAME)) with
      | .error e => .error e
      | .ok opf2 =>
        .ok ({ filename := b.StartFile, opf := attachFilters opf2 (buildFilters b.Filters) },
          owner.2)

/-- What a file operation returns: the path and the error (`none` for nil). -/
abbrev Result := GoString × Option GoError

/-- Source: `FileBuilder.load`. The native call writes through `opf.File`; the
dialog after the call is `d` with that buffer replaced. -/
def load (w : Native) (b : FileBuilder) : Except String (Result × List Call) :=
  match openfile w (OFN_FILEMUSTEXIST ||| OFN_NOCHANGEDIR) b with
  | .error e => .error e
  | .ok (d, calls) =>
    let r := w.getOpenFileName d.opf
    let d1 : filedlg := { d with opf := { d.opf with File := r.2 } }
    if r.1 then .ok ((d1.Filename, none), calls ++ [Call.GetOpenFileName d.opf])
    else
      let e := err w
      .ok (([], some e.1), calls ++ [Call.GetOpenFileName d.opf] ++ e.2)

/-- Source: `FileBuilder.save`. -/
def save (w : Native) (b : FileBuilder) : Except String (Result × List Call) :=
  match openfile w (OFN_OVERWRITEPROMPT ||| OFN_NOCHANGEDIR) b with
  | .error e => .error e
  | .ok (d, calls) =>
    let r := w.getSaveFileName d.opf
    let d1 : filedlg := { d with opf := { d.opf with File := r.2 } }
    if r.1 then .ok ((d1.Filename, none), calls ++ [Call.GetSaveFileName d.opf])
    else
      let e := err w
      .ok (([], some e.1), calls ++ [Call.GetSaveFileName d.opf] ++ e.2)

/-! ## Directory dialog -/

/-- Source: `callbackDefaultDir`. The result is the returned `int` and the
messages sent. -/
def callbackDefaultDir (hwnd msg : Nat) (lParam : Nat) (lpData : Ptr) : Int × List Call :=
  if msg = bffm_INITIALIZED then (0, [Call.SendMessage hwnd bffm_SETSELECTION TRUE lpData])
  else (0, [])

/-- The pointer kept by `p, _ := syscall.UTF16PtrFromString(s)`: nil on an error. -/
def ptrIgnoringError (s : GoString) : Ptr :=
  match UTF16PtrFromString s with
  | .error _ => none
  | .ok p => p

/-- Source: `selectdir`. -/
def selectdir (w : Native) (b : DirectoryBuilder) : dirdlg × List Call :=
  let owner := _GetForegroundWindow w
  let bi0 : BROWSEINFO :=
    { Owner := owner.1, Title := none, Flags := BIF_RETURNONLYFSDIRS ||| BIF_NEWDIALOGSTYLE,
      CallbackFunc := none, LParam := none }
  let bi1 : BROWSEINFO :=
    if b.Dlg.Title ≠ [] then { bi0 with Title := ptrIgnoringError b.Dlg.Title } else bi0
  let bi2 : BROWSEINFO :=
    if b.StartDir ≠ [] then
      { bi1 with LParam := ptrIgnoringError b.StartDir,
                 CallbackFunc := some Callback.callbackDefaultDir }
    else bi1
  ({ bi := bi2 }, owner.2)

/-- Source: `DirectoryBuilder.browse`. -/
def browse (w : Native) (b : DirectoryBuilder) : Result × List Call :=
  let d := selectdir w b
  let res := w.shBrowseForFolder d.1.bi
  if res = 0 then (([], some GoError.ErrCancelled), d.2 ++ [Call.SHBrowseForFolder d.1.bi])
  else ((w.shGetPathFromIDList res, none),
    d.2 ++ [Call.SHBrowseForFolder d.1.bi, Call.SHGetPathFromIDList res])

/-! ## Reference layouts of the filter buffer -/

/-- The group of one filter in the words of the specification: the description,
a 0, every extension as `*.<ext>;` followed by a 0, and a 0 closing the group.
`units` gives the UTF-16 code units of a string. -/
def filterGroupSpec (units : GoString → List Nat) (f : FileFilter) : List Nat :=
  units f.Desc ++ [0] ++
    (f.Extensions.map fun ext => units (lit "*." ++ ext ++ lit ";") ++ [0]).flatten ++ [0]

/-- The filter buffer in the words of the specification: the groups in order and
two final 0 units. -/
def filterBufferSpec (units : GoString → List Nat) (fs : List FileFilter) : List Nat :=
  (fs.map (filterGroupSpec units)).flatten ++ [0, 0]

/-- The pattern string of the comment in `openfile`, `*.e1;*.e2;...;*.en;`. -/
def patternString (exts : List GoString) : GoString :=
  (exts.map fun ext => lit "*." ++ ext ++ lit ";").flatten

/-- The group of one filter in the form of the comment in `openfile`,
`"Music File\0*.mp3;*.ogg;*.wav;\0"`: description, 0, one pattern string, 0. -/
def filterGroupComment (f : FileFilter) : List Nat :=
  utf16FromStringWithoutNullTermination f.Desc ++ [0] ++
    utf16FromStringWithoutNullTermination (patternString f.Extensions) ++ [0]

/-- The strings a reader obtains who splits a buffer at its 0 units: the runs of
non-zero units, each ended by a 0 (units after the last 0 are not a string). -/
def splitAtNul : List Nat → List (List Nat)
  | [] => []
  | u :: us =>
    if u = 0 then [] :: splitAtNul us
    else
      match splitAtNul us with
      | [] => []
      | s :: ss => (u :: s) :: ss

/-! ## Unicode encoding forms, as the standard defines them -/

/-- A Unicode scalar value: a code point that is not a surrogate. -/
def isScalar (v : Nat) : Prop := v < 0xD800 ∨ (0xE000 ≤ v ∧ v < 0x110000)

instance (v : Nat) : Decidable (isScalar v) := by unfold isScalar; infer_instance

/-- The UTF-8 encoding of a code point (the bit distribution table of the
Unicode standard), in arithmetic form. -/
def utf8Of (v : Nat) : List Nat :=
  if v < 0x80 then [v]
  else if v < 0x800 then [0xC0 + v / 64, 0x80 + v % 64]
  else if v < 0x10000 then [0xE0 + v / 4096, 0x80 + v / 64 % 64, 0x80 + v % 64]
  else [0xF0 + v / 262144, 0x80 + v / 4096 % 64, 0x80 + v / 64 % 64, 0x80 + v % 64]

/-- The UTF-16 encoding of a scalar value: itself below 0x10000, else the high
and the low surrogate of `v - 0x10000`. -/
def utf16Of (v : Nat) : List Nat :=
  if v < 0x10000 then [v]
  else [0xD800 + (v - 0x10000) / 1024, 0xDC00 + (v - 0x10000) % 1024]

/-- The code points of a Go string as the language defines them for `[]rune(s)`
and `range s`: where the UTF-8 encoding of a scalar value starts, that value, and
the string goes on after it; anywhere else U+FFFD, and the string goes on one
byte later. -/
inductive GoRunes : GoString → List Nat → Prop where
  | done : GoRunes [] []
  | scalar (v : Nat) (rest : GoString) (rs : List Nat) :
      isScalar v → GoRunes rest rs → GoRunes (utf8Of v ++ rest) (v :: rs)
  | invalid (b : Nat) (rest : GoString) (rs : List Nat) :
      (∀ v tail, isScalar v → b :: rest ≠ utf8Of v ++ tail) →
      GoRunes rest rs → GoRunes (b :: rest) (0xFFFD :: rs)

/-- The list `us` holds the UTF-16 code units of the Go string `s`: the UTF-16
encodings of its code points, in order. -/
def IsUTF16Of (s : GoString) (us : List Nat) : Prop :=
  ∃ rs, GoRunes s rs ∧ us = (rs.map utf16Of).flatten

/-- A surrogate code point. -/
def isSurrogate (c : Nat) : Prop := 0xD800 ≤ c ∧ c < 0xE000

/-- The list `us` holds the UTF-16 code units of the Go string `s` read as WTF-8,
the encoding `syscall.UTF16FromString` documents: where the UTF-8 encoding of a
scalar value starts, its UTF-16 encoding; where the same bit distribution encodes
a surrogate code point, that surrogate as one unit; anywhere else U+FFFD, and the
string goes on one byte later. -/
inductive IsWTF16Of : GoString → List Nat → Prop where
  | done : IsWTF16Of [] []
  | scalar (v : Nat) (rest : GoString) (us : List Nat) :
      isScalar v → IsWTF16Of rest us → IsWTF16Of (utf8Of v ++ rest) (utf16Of v ++ us)
  | surrogate (c : Nat) (rest : GoString) (us : List Nat) :
      isSurrogate c → IsWTF16Of rest us → IsWTF16Of (utf8Of c ++ rest) (c :: us)
  | invalid (b : Nat) (rest : GoString) (us : List Nat) :
      (∀ v tail, v < 0x110000 → b :: rest ≠ utf8Of v ++ tail) →
      IsWTF16Of rest us → IsWTF16Of (b :: rest) (0xFFFD :: us)

/-! ## Auxiliary definitions for the statements -/

/-- The null-terminated encoding that `UTF16FromString` yields on success. -/
def encodeZ (s : GoString) : List Nat := encodeWTF16 s ++ [0]

/-- The request structure `openfile` hands out when nothing panics. -/
def requestOf (w : Native) (flags : Nat) (b : FileBuilder) : OPENFILENAME :=
  attachFilters
    { StructSize := w.sizeofOPENFILENAME % 2 ^ 32, Owner := w.foregroundWindow, Filter := none,
      File := encodeZ b.StartFile, MaxFile := (encodeZ b.StartFile).length % 2 ^ 32,
      InitialDir := if b.StartDir ≠ [] then some (encodeZ b.StartDir) else none,
      Title := if b.Dlg.Title ≠ [] then some (encodeZ b.Dlg.Title) else none,
      Flags := flags % 2 ^ 32 }
    (buildFilters b.Filters)

/-- The lowercase hexadecimal digit of a value below 16, as a byte. -/
def hexDigit (d : Nat) : Nat := if d < 10 then 48 + d else 87 + d

/-- The lowercase hexadecimal digits of `c`, most significant first, none for 0. -/
def hexDigits (c : Nat) : GoString := (Nat.digits 16 c).reverse.map hexDigit

/-- The value of a lowercase hexadecimal digit. -/
def hexValue (ch : Nat) : Nat := if ch < 58 then ch - 48 else ch - 87

/-- The number a string of lowercase hexadecimal digits denotes. -/
def parseHex (s : GoString) : Nat := s.foldl (fun acc ch => 16 * acc + hexValue ch) 0

/-! ## Concrete inputs -/

/-- The filter of the comment in `openfile`. -/
def musicFilter : FileFilter :=
  { Desc := lit "Music File", Extensions := [lit "mp3", lit "ogg", lit "wav"] }

/-- A builder with a title, a starting directory, a starting file and one filter. -/
def musicBuilder : FileBuilder :=
  { Dlg := { Title := lit "Open" }, StartDir := lit "C:", StartFile := lit "a.txt",
    Filters := [musicFilter] }

/-- A builder whose second filter has the description `Café` (with `C3 A9`), the
extension `♫` (`E2 99 AB`), an extension that is the single invalid byte `FF`, and
an extension with `😀` (`F0 9F 98 80`). -/
def unicodeBuilder : FileBuilder :=
  { Dlg := { Title := [] }, StartDir := [], StartFile := [],
    Filters := [musicFilter,
      { Desc := [0x43, 0x61, 0x66, 0xC3, 0xA9],
        Extensions := [[0xE2, 0x99, 0xAB], [0xFF], [0xF0, 0x9F, 0x98, 0x80]] }] }

/-- A builder with nothing set. -/
def emptyBuilder : FileBuilder :=
  { Dlg := { Title := [] }, StartDir := [], StartFile := [], Filters := [] }

/-- An operating system whose file dialogs succeed and leave `b.txt` in the
file-name buffer, and whose folder dialog returns an item whose path is empty. -/
def acceptingNative : Native :=
  { foregroundWindow := 7, sizeofOPENFILENAME := 152,
    getOpenFileName := fun _ => (true, encodeZ (lit "b.txt")),
    getSaveFileName := fun _ => (true, encodeZ (lit "b.txt")),
    commDlgExtendedError := 0,
    shBrowseForFolder := fun _ => 1,
    shGetPathFromIDList := fun _ => [],
    sendMessage := fun _ _ _ _ => 0 }

/-- An operating system whose file dialogs succeed and leave the file-name buffer
as it was, and whose folder dialog returns an item whose path is empty. -/
def confirmingNative : Native :=
  { foregroundWindow := 7, sizeofOPENFILENAME := 152,
    getOpenFileName := fun opf => (true, opf.File),
    getSaveFileName := fun opf => (true, opf.File),
    commDlgExtendedError := 0,
    shBrowseForFolder := fun _ => 1,
    shGetPathFromIDList := fun _ => [],
    sendMessage := fun _ _ _ _ => 0 }

/-- An operating system whose dialogs fail with the extended-error code `c`. -/
def failingNative (c : Nat) : Native :=
  { foregroundWindow := 7, sizeofOPENFILENAME := 152,
    getOpenFileName := fun opf => (false, opf.File),
    getSaveFileName := fun opf => (false, opf.File),
    commDlgExtendedError := c,
    shBrowseForFolder := fun _ => 0,
    shGetPathFromIDList := fun _ => [],
    sendMessage := fun _ _ _ _ => 0 }

/-! ## Theorems -/

/-! ### UTF-8 decoding and UTF-16 encoding -/

theorem or_shift6 (x y : Nat) (hy : y < 64) : (x <<< 6) ||| y = 64 * x + y := by
  rw [Nat.shiftLeft_eq, Nat.mul_comm]
  exact (Nat.mul_add_lt_is_or (i := 6) (by simpa using hy) x).symm

theorem or_shift12 (x y z : Nat) (hy : y < 64) (hz : z < 64) :
    (x <<< 12) ||| (y <<< 6) ||| z = 4096 * x + 64 * y + z := by
  have h1 : (x <<< 12) ||| (y <<< 6) = 4096 * x + 64 * y := by
    rw [Nat.shiftLeft_eq, Nat.shiftLeft_eq, Nat.mul_comm x]
    have := Nat.mul_add_lt_is_or (i := 12) (b := y * 2 ^ 6) (by norm_num; omega) x
    rw [← this]; norm_num; omega
  rw [h1]
  have h2 : 4096 * x + 64 * y = 2 ^ 6 * (64 * x + y) := by norm_num; omega
  rw [h2, ← Nat.mul_add_lt_is_or (i := 6) (by simpa using hz)]

theorem or_shift18 (x y z u : Nat) (hy : y < 64) (hz : z < 64) (hu : u < 64) :
    (x <<< 18) ||| (y <<< 12) ||| (z <<< 6) ||| u = 262144 * x + 4096 * y + 64 * z + u := by
  have h1 : (x <<< 18) ||| (y <<< 12) = 262144 * x + 4096 * y := by
    rw [Nat.shiftLeft_eq, Nat.shiftLeft_eq, Nat.mul_comm x]
    have := Nat.mul_add_lt_is_or (i := 18) (b := y * 2 ^ 12) (by norm_num; omega) x
    rw [← this]; norm_num; omega
  have h2 : (262144 * x + 4096 * y) ||| (z <<< 6) = 262144 * x + 4096 * y + 64 * z := by
    rw [Nat.shiftLeft_eq]
    have e : 262144 * x + 4096 * y = 2 ^ 12 * (64 * x + y) := by norm_num; omega
    rw [e, ← Nat.mul_add_lt_is_or (i := 12) (b := z * 2 ^ 6) (by norm_num; omega)]
    norm_num; omega
  rw [h1, h2]
  have e : 262144 * x + 4096 * y + 64 * z = 2 ^ 6 * (4096 * x + 64 * y + z) := by
    norm_num; omega
  rw [e, ← Nat.mul_add_lt_is_or (i := 6) (by simpa using hu)]

theorem and_1F (b : Nat) : b &&& 0x1F = b % 32 := Nat.and_pow_two_sub_one_eq_mod b 5
theorem and_0F (b : Nat) : b &&& 0x0F = b % 16 := Nat.and_pow_two_sub_one_eq_mod b 4
theorem and_07 (b : Nat) : b &&& 0x07 = b % 8 := Nat.and_pow_two_sub_one_eq_mod b 3
theorem and_3F (b : Nat) : b &&& 0x3F = b % 64 := Nat.and_pow_two_sub_one_eq_mod b 6
theorem and_3FF (b : Nat) : b &&& 0x3FF = b % 1024 := Nat.and_pow_two_sub_one_eq_mod b 10

theorem isCont_iff (b : Nat) : isCont b = true ↔ 0x80 ≤ b ∧ b ≤ 0xBF := by
  simp [isCont]

theorem secondOk_E (b0 b1 : Nat) (h0 : 0xE0 ≤ b0) (h0' : b0 ≤ 0xEF) :
    secondOk b0 b1 = true ↔
      0x80 ≤ b1 ∧ b1 ≤ 0xBF ∧ (b0 = 0xE0 → 0xA0 ≤ b1) ∧ (b0 = 0xED → b1 ≤ 0x9F) := by
  unfold secondOk isCont
  by_cases h1 : b0 = 0xE0
  · subst h1; simp; omega
  · by_cases h2 : b0 = 0xED
    · subst h2; simp; omega
    · rw [if_neg h1, if_neg h2, if_neg (by omega), if_neg (by omega)]
      simp [h1, h2]

theorem secondOk_F (b0 b1 : Nat) (h0 : 0xF0 ≤ b0) (h0' : b0 ≤ 0xF4) :
    secondOk b0 b1 = true ↔
      0x80 ≤ b1 ∧ b1 ≤ 0xBF ∧ (b0 = 0xF0 → 0x90 ≤ b1) ∧ (b0 = 0xF4 → b1 ≤ 0x8F) := by
  unfold secondOk isCont
  by_cases h1 : b0 = 0xF0
  · subst h1; simp; omega
  · by_cases h2 : b0 = 0xF4
    · subst h2; simp; omega
    · rw [if_neg (by omega), if_neg (by omega), if_neg h1, if_neg h2]
      simp [h1, h2]

theorem dec1 (b0 : Nat) (tl : GoString) (h0 : b0 < 0x80) :
    DecodeRuneInString (b0 :: tl) = (b0, 1) := by
  simp only [DecodeRuneInString]
  rw [if_pos h0]

theorem dec2 (b0 b1 : Nat) (tl : GoString) (h0 : 0xC2 ≤ b0) (h0' : b0 ≤ 0xDF)
    (h1 : isCont b1 = true) :
    DecodeRuneInString (b0 :: b1 :: tl) = (64 * (b0 - 0xC0) + (b1 - 0x80), 2) := by
  have hc := (isCont_iff b1).1 h1
  have hA : b0 % 32 = b0 - 0xC0 := by omega
  have hB : b1 % 64 = b1 - 0x80 := by omega
  simp only [DecodeRuneInString]
  rw [if_neg (by omega), if_pos ⟨h0, h0'⟩]
  simp only [h1, if_true, and_1F, and_3F]
  rw [or_shift6 _ _ (Nat.mod_lt _ (by norm_num)), hA, hB]

theorem dec3 (b0 b1 b2 : Nat) (tl : GoString) (h0 : 0xE0 ≤ b0) (h0' : b0 ≤ 0xEF)
    (h1 : secondOk b0 b1 = true) (h2 : isCont b2 = true) :
    DecodeRuneInString (b0 :: b1 :: b2 :: tl) =
      (4096 * (b0 - 0xE0) + 64 * (b1 - 0x80) + (b2 - 0x80), 3) := by
  have hs := (secondOk_E b0 b1 h0 h0').1 h1
  have hc := (isCont_iff b2).1 h2
  have hA : b0 % 16 = b0 - 0xE0 := by omega
  have hB : b1 % 64 = b1 - 0x80 := by omega
  have hC : b2 % 64 = b2 - 0x80 := by omega
  simp only [DecodeRuneInString]
  rw [if_neg (by omega), if_neg (by omega), if_pos ⟨h0, h0'⟩]
  simp only [h1, h2, Bool.and_self, if_true, and_0F, and_3F]
  rw [or_shift12 _ _ _ (Nat.mod_lt _ (by norm_num)) (Nat.mod_lt _ (by norm_num)), hA, hB, hC]

theorem dec4 (b0 b1 b2 b3 : Nat) (tl : GoString) (h0 : 0xF0 ≤ b0) (h0' : b0 ≤ 0xF4)
    (h1 : secondOk b0 b1 = true) (h2 : isCont b2 = true) (h3 : isCont b3 = true) :
    DecodeRuneInString (b0 :: b1 :: b2 :: b3 :: tl) =
      (262144 * (b0 - 0xF0) + 4096 * (b1 - 0x80) + 64 * (b2 - 0x80) + (b3 - 0x80), 4) := by
  have hs := (secondOk_F b0 b1 h0 h0').1 h1
  have hc := (isCont_iff b2).1 h2
  have hd := (isCont_iff b3).1 h3
  have hA : b0 % 8 = b0 - 0xF0 := by omega
  have hB : b1 % 64 = b1 - 0x80 := by omega
  have hC : b2 % 64 = b2 - 0x80 := by omega
  have hD : b3 % 64 = b3 - 0x80 := by omega
  simp only [DecodeRuneInString]
  rw [if_neg (by omega), if_neg (by omega), if_neg (by omega), if_pos ⟨h0, h0'⟩]
  simp only [h1, h2, h3, Bool.and_self, if_true, and_07, and_3F]
  rw [or_shift18 _ _ _ _ (Nat.mod_lt _ (by norm_num)) (Nat.mod_lt _ (by norm_num))
    (Nat.mod_lt _ (by norm_num)), hA, hB, hC, hD]

/-- The decoder reads the UTF-8 encoding of a scalar value back. -/
theorem decode_utf8Of (v : Nat) (rest : GoString) (hv : isScalar v) :
    DecodeRuneInString (utf8Of v ++ rest) = (v, (utf8Of v).length) := by
  unfold isScalar at hv
  unfold utf8Of
  by_cases h1 : v < 0x80
  · rw [if_pos h1]; simpa using dec1 v rest h1
  · by_cases h2 : v < 0x800
    · rw [if_neg h1, if_pos h2]
      have := dec2 (0xC0 + v / 64) (0x80 + v % 64) rest (by omega) (by omega)
        ((isCont_iff _).2 (by omega))
      simp only [List.cons_append, List.nil_append, List.length_cons, List.length_nil]
      rw [this]
      rw [Prod.mk.injEq]; exact ⟨by omega, rfl⟩
    · by_cases h3 : v < 0x10000
      · rw [if_neg h1, if_neg h2, if_pos h3]
        have := dec3 (0xE0 + v / 4096) (0x80 + v / 64 % 64) (0x80 + v % 64) rest
          (by omega) (by omega)
          ((secondOk_E _ _ (by omega) (by omega)).2 (by omega))
          ((isCont_iff _).2 (by omega))
        simp only [List.cons_append, List.nil_append, List.length_cons, List.length_nil]
        rw [this]
        rw [Prod.mk.injEq]; exact ⟨by omega, rfl⟩
      · rw [if_neg h1, if_neg h2, if_neg h3]
        have := dec4 (0xF0 + v / 262144) (0x80 + v / 4096 % 64) (0x80 + v / 64 % 64)
          (0x80 + v % 64) rest (by omega) (by omega)
          ((secondOk_F _ _ (by omega) (by omega)).2 (by omega))
          ((isCont_iff _).2 (by omega)) ((isCont_iff _).2 (by omega))
        simp only [List.cons_append, List.nil_append, List.length_cons, List.length_nil]
        rw [this]
        rw [Prod.mk.injEq]; exact ⟨by omega, rfl⟩

theorem utf8Of_two (b0 b1 : Nat) (h0 : 0xC2 ≤ b0) (h0' : b0 ≤ 0xDF) (h1 : 0x80 ≤ b1)
    (h1' : b1 ≤ 0xBF) : utf8Of (64 * (b0 - 0xC0) + (b1 - 0x80)) = [b0, b1] := by
  unfold utf8Of
  rw [if_neg (by omega), if_pos (by omega)]
  simp only [List.cons.injEq, and_true]
  exact ⟨by omega, by omega⟩

theorem utf8Of_three (b0 b1 b2 : Nat) (h0 : 0xE0 ≤ b0) (h0' : b0 ≤ 0xEF)
    (h1 : 0x80 ≤ b1 ∧ b1 ≤ 0xBF ∧ (b0 = 0xE0 → 0xA0 ≤ b1) ∧ (b0 = 0xED → b1 ≤ 0x9F))
    (h2 : 0x80 ≤ b2 ∧ b2 ≤ 0xBF) :
    utf8Of (4096 * (b0 - 0xE0) + 64 * (b1 - 0x80) + (b2 - 0x80)) = [b0, b1, b2] ∧
      isScalar (4096 * (b0 - 0xE0) + 64 * (b1 - 0x80) + (b2 - 0x80)) := by
  constructor
  · unfold utf8Of
    rw [if_neg (by omega), if_neg (by omega), if_pos (by omega)]
    simp only [List.cons.injEq, and_true]
    exact ⟨by omega, by omega, by omega⟩
  · unfold isScalar; omega

theorem utf8Of_four (b0 b1 b2 b3 : Nat) (h0 : 0xF0 ≤ b0) (h0' : b0 ≤ 0xF4)
    (h1 : 0x80 ≤ b1 ∧ b1 ≤ 0xBF ∧ (b0 = 0xF0 → 0x90 ≤ b1) ∧ (b0 = 0xF4 → b1 ≤ 0x8F))
    (h2 : 0x80 ≤ b2 ∧ b2 ≤ 0xBF) (h3 : 0x80 ≤ b3 ∧ b3 ≤ 0xBF) :
    utf8Of (262144 * (b0 - 0xF0) + 4096 * (b1 - 0x80) + 64 * (b2 - 0x80) + (b3 - 0x80)) =
        [b0, b1, b2, b3] ∧
      isScalar (262144 * (b0 - 0xF0) + 4096 * (b1 - 0x80) + 64 * (b2 - 0x80) + (b3 - 0x80)) := by
  constructor
  · unfold utf8Of
    rw [if_neg (by omega), if_neg (by omega), if_neg (by omega)]
    simp only [List.cons.injEq, and_true]
    exact ⟨by omega, by omega, by omega, by omega⟩
  · unfold isScalar; omega

/-- The decoder rejects one byte, or a scalar value is encoded at the front. -/
theorem decode_cases (b0 : Nat) (tl : GoString) :
    DecodeRuneInString (b0 :: tl) = (RuneError, 1) ∨
      ∃ v tail, isScalar v ∧ b0 :: tl = utf8Of v ++ tail := by
  by_cases c1 : b0 < 0x80
  · right
    refine ⟨b0, tl, Or.inl (by omega), ?_⟩
    unfold utf8Of; rw [if_pos c1]; rfl
  by_cases c2 : 0xC2 ≤ b0 ∧ b0 ≤ 0xDF
  · cases tl with
    | nil => left; simp only [DecodeRuneInString]; rw [if_neg c1, if_pos c2]
    | cons b1 tl1 =>
      by_cases k1 : isCont b1 = true
      · right
        have hc := (isCont_iff b1).1 k1
        refine ⟨64 * (b0 - 0xC0) + (b1 - 0x80), tl1, Or.inl (by omega), ?_⟩
        rw [utf8Of_two b0 b1 c2.1 c2.2 hc.1 hc.2]; rfl
      · left; simp only [DecodeRuneInString]; rw [if_neg c1, if_pos c2]; simp [k1]
  by_cases c3 : 0xE0 ≤ b0 ∧ b0 ≤ 0xEF
  · rcases tl with _ | ⟨b1, _ | ⟨b2, tl2⟩⟩
    · left; simp only [DecodeRuneInString]; rw [if_neg c1, if_neg c2, if_pos c3]
    · left; simp only [DecodeRuneInString]; rw [if_neg c1, if_neg c2, if_pos c3]
    · by_cases k : (secondOk b0 b1 && isCont b2) = true
      · right
        rw [Bool.and_eq_true] at k
        have hs := (secondOk_E b0 b1 c3.1 c3.2).1 k.1
        have hc := (isCont_iff b2).1 k.2
        have h := utf8Of_three b0 b1 b2 c3.1 c3.2 hs hc
        refine ⟨_, tl2, h.2, ?_⟩
        rw [h.1]; rfl
      · left; simp only [DecodeRuneInString]; rw [if_neg c1, if_neg c2, if_pos c3]; simp [k]
  by_cases c4 : 0xF0 ≤ b0 ∧ b0 ≤ 0xF4
  · rcases tl with _ | ⟨b1, _ | ⟨b2, _ | ⟨b3, tl3⟩⟩⟩
    · left; simp only [DecodeRuneInString]; rw [if_neg c1, if_neg c2, if_neg c3, if_pos c4]
    · left; simp only [DecodeRuneInString]; rw [if_neg c1, if_neg c2, if_neg c3, if_pos c4]
    · left; simp only [DecodeRuneInString]; rw [if_neg c1, if_neg c2, if_neg c3, if_pos c4]
    · by_cases k : (secondOk b0 b1 && isCont b2 && isCont b3) = true
      · right
        rw [Bool.and_eq_true, Bool.and_eq_true] at k
        have hs := (secondOk_F b0 b1 c4.1 c4.2).1 k.1.1
        have hc := (isCont_iff b2).1 k.1.2
        have hd := (isCont_iff b3).1 k.2
        have h := utf8Of_four b0 b1 b2 b3 c4.1 c4.2 hs hc hd
        refine ⟨_, tl3, h.2, ?_⟩
        rw [h.1]; rfl
      · left; simp only [DecodeRuneInString]
        rw [if_neg c1, if_neg c2, if_neg c3, if_pos c4]; simp [k]
  · left; simp only [DecodeRuneInString]; rw [if_neg c1, if_neg c2, if_neg c3, if_neg c4]

theorem utf8Of_length (v : Nat) : 1 ≤ (utf8Of v).length ∧
    ((utf8Of v).length = 1 → v < 0x80) := by
  unfold utf8Of
  split_ifs <;> simp
  omega

theorem runesFrom_skip (pre rest : GoString) :
    runesFrom pre.length (pre ++ rest) = runesFrom 0 rest := by
  induction pre with
  | nil => rfl
  | cons p ps ih => simpa [runesFrom] using ih

theorem runes_scalar (v : Nat) (rest : GoString) (hv : isScalar v) :
    runes (utf8Of v ++ rest) = v :: runes rest := by
  have hd := decode_utf8Of v rest hv
  have hl := (utf8Of_length v).1
  unfold runes
  cases hu : utf8Of v with
  | nil => rw [hu] at hl; simp at hl
  | cons b0 bs =>
    rw [hu] at hd
    simp only [List.cons_append] at hd ⊢
    rw [runesFrom, hd]
    simp only [List.length_cons, Nat.add_sub_cancel]
    rw [runesFrom_skip]

theorem runes_invalid (b : Nat) (rest : GoString)
    (h : DecodeRuneInString (b :: rest) = (RuneError, 1)) :
    runes (b :: rest) = 0xFFFD :: runes rest := by
  unfold runes
  rw [runesFrom, h]
  rfl

theorem no_scalar_of_reject (b : Nat) (rest : GoString)
    (h : DecodeRuneInString (b :: rest) = (RuneError, 1)) :
    ∀ v tail, isScalar v → b :: rest ≠ utf8Of v ++ tail := by
  intro v tail hv heq
  rw [heq, decode_utf8Of v tail hv, Prod.mk.injEq] at h
  have := (utf8Of_length v).2 h.2
  have h1 := h.1
  unfold RuneError at h1
  omega

theorem GoRunes_unique (s : GoString) (rs : List Nat) (h : GoRunes s rs) : rs = runes s := by
  induction h with
  | done => rfl
  | scalar v rest rs hv _ ih => rw [runes_scalar v rest hv, ih]
  | invalid b rest rs hno _ ih =>
    rcases decode_cases b rest with hrej | ⟨v, tail, hv, heq⟩
    · rw [runes_invalid b rest hrej, ih]
    · exact absurd heq (hno v tail hv)

theorem GoRunes_runes_aux (n : Nat) : ∀ s : GoString, s.length ≤ n → GoRunes s (runes s) := by
  induction n with
  | zero =>
    intro s hs
    have : s = [] := List.length_eq_zero.mp (by omega)
    subst this
    exact GoRunes.done
  | succ n ih =>
    intro s hs
    cases s with
    | nil => exact GoRunes.done
    | cons b rest =>
      rcases decode_cases b rest with hrej | ⟨v, tail, hv, heq⟩
      · rw [runes_invalid b rest hrej]
        exact GoRunes.invalid b rest _ (no_scalar_of_reject b rest hrej)
          (ih rest (by simpa using hs))
      · rw [heq, runes_scalar v tail hv]
        refine GoRunes.scalar v tail _ hv (ih tail ?_)
        have hl := (utf8Of_length v).1
        have : (b :: rest).length = (utf8Of v).length + tail.length := by
          rw [heq, List.length_append]
        simp only [List.length_cons] at hs this
        omega

/-- The conversion `[]rune(s)` yields exactly the code points of `s`. -/
theorem GoRunes_iff (s : GoString) (rs : List Nat) : GoRunes s rs ↔ rs = runes s :=
  ⟨GoRunes_unique s rs, fun h => h ▸ GoRunes_runes_aux s.length s (Nat.le_refl _)⟩

theorem GoRunes_scalars (s : GoString) (rs : List Nat) (h : GoRunes s rs) :
    ∀ r ∈ rs, isScalar r := by
  induction h with
  | done => simp
  | scalar v rest rs hv _ ih =>
    intro r hr
    rcases List.mem_cons.1 hr with rfl | hr
    · exact hv
    · exact ih r hr
  | invalid b rest rs _ _ ih =>
    intro r hr
    rcases List.mem_cons.1 hr with rfl | hr
    · unfold isScalar; omega
    · exact ih r hr

theorem encodeRune_scalar (r : Nat) (h : isScalar r) : encodeRune r = utf16Of r := by
  unfold isScalar at h
  unfold encodeRune utf16Of
  by_cases h1 : r < 0x10000
  · rw [if_pos (by omega), if_pos h1]
  · rw [if_neg (by omega), if_pos (by omega), if_neg h1, and_3FF, and_3FF,
      Nat.shiftRight_eq_div_pow]
    have : (r - 0x10000) / 2 ^ 10 % 1024 = (r - 0x10000) / 1024 := by
      norm_num; omega
    rw [this]

theorem utf16Encode_scalars (rs : List Nat) (h : ∀ r ∈ rs, isScalar r) :
    utf16Encode rs = (rs.map utf16Of).flatten := by
  induction rs with
  | nil => rfl
  | cons r rs ih =>
    simp only [utf16Encode, List.map_cons, List.flatten_cons]
    rw [encodeRune_scalar r (h r (by simp)), ih (fun x hx => h x (by simp [hx]))]

/-- The encoder of the source yields exactly the UTF-16 code units of `s`. -/
theorem IsUTF16Of_iff (s : GoString) (us : List Nat) :
    IsUTF16Of s us ↔ us = utf16FromStringWithoutNullTermination s := by
  unfold IsUTF16Of utf16FromStringWithoutNullTermination
  constructor
  · rintro ⟨rs, hrs, rfl⟩
    rw [← GoRunes_unique s rs hrs, utf16Encode_scalars rs (GoRunes_scalars s rs hrs)]
  · rintro rfl
    have hr := (GoRunes_iff s (runes s)).2 rfl
    exact ⟨runes s, hr, utf16Encode_scalars _ (GoRunes_scalars s _ hr)⟩

theorem wtf8Surrogate_eq (b0 b1 b2 : Nat) (tl : GoString) (h0 : b0 = 0xED)
    (h1 : 0xA0 ≤ b1 ∧ b1 ≤ 0xBF) (h2 : 0x80 ≤ b2 ∧ b2 ≤ 0xBF) :
    wtf8Surrogate (b0 :: b1 :: b2 :: tl) = some (0xD000 + 64 * (b1 - 0x80) + (b2 - 0x80)) := by
  simp only [wtf8Surrogate]
  rw [if_pos ⟨h0, h1.1, h1.2, h2.1, h2.2⟩, and_0F, and_3F, and_3F, Nat.shiftLeft_eq,
    Nat.shiftLeft_eq, Option.some.injEq]
  have e12 : (2 : Nat) ^ 12 = 4096 := by norm_num
  have e6 : (2 : Nat) ^ 6 = 64 := by norm_num
  have e16 : (2 : Nat) ^ 16 = 65536 := by norm_num
  rw [e12, e6, e16]
  omega

theorem utf8Of_surrogate (c : Nat) (hc : isSurrogate c) :
    utf8Of c = [0xED, 0x80 + c / 64 % 64, 0x80 + c % 64] := by
  unfold isSurrogate at hc
  unfold utf8Of
  rw [if_neg (by omega), if_neg (by omega), if_pos (by omega)]
  simp only [List.cons.injEq, and_true, true_and]
  omega

theorem wtf8Surrogate_utf8Of (c : Nat) (rest : GoString) (hc : isSurrogate c) :
    wtf8Surrogate (utf8Of c ++ rest) = some c ∧
      DecodeRuneInString (utf8Of c ++ rest) = (RuneError, 1) ∧ (utf8Of c).length = 3 := by
  have hu := utf8Of_surrogate c hc
  unfold isSurrogate at hc
  rw [hu]
  refine ⟨?_, ?_, rfl⟩
  · simp only [List.cons_append, List.nil_append]
    rw [wtf8Surrogate_eq _ _ _ _ rfl (by omega) (by omega), Option.some.injEq]
    omega
  · simp only [List.cons_append, List.nil_append, DecodeRuneInString]
    rw [if_neg (by omega), if_neg (by omega), if_pos (by omega)]
    have : secondOk 0xED (0x80 + c / 64 % 64) = false := by
      rw [Bool.eq_false_iff]
      intro h
      have := (secondOk_E _ _ (by omega) (by omega)).1 h
      omega
    simp [this]

theorem wtf8Surrogate_some (b0 : Nat) (tl : GoString) (u : Nat)
    (h : wtf8Surrogate (b0 :: tl) = some u) :
    ∃ c tail, isSurrogate c ∧ b0 :: tl = utf8Of c ++ tail := by
  rcases tl with _ | ⟨b1, _ | ⟨b2, tl2⟩⟩
  · simp [wtf8Surrogate] at h
  · simp [wtf8Surrogate] at h
  · by_cases k : b0 = 0xED ∧ 0xA0 ≤ b1 ∧ b1 ≤ 0xBF ∧ 0x80 ≤ b2 ∧ b2 ≤ 0xBF
    · have hc : isSurrogate (0xD000 + 64 * (b1 - 0x80) + (b2 - 0x80)) := by
        unfold isSurrogate; omega
      refine ⟨_, tl2, hc, ?_⟩
      rw [utf8Of_surrogate _ hc]
      simp only [List.cons_append, List.nil_append, List.cons.injEq, and_true]
      omega
    · simp only [wtf8Surrogate] at h
      rw [if_neg k] at h
      exact absurd h (by simp)

theorem wtf8Surrogate_scalar (v : Nat) (rest : GoString) (hv : isScalar v) :
    wtf8Surrogate (utf8Of v ++ rest) = none := by
  cases hw : wtf8Surrogate (utf8Of v ++ rest) with
  | none => rfl
  | some u =>
    have hl := (utf8Of_length v).1
    cases hu : utf8Of v with
    | nil => rw [hu] at hl; simp at hl
    | cons b0 bs =>
      rw [hu] at hw
      obtain ⟨c, tail, hc, heq⟩ := wtf8Surrogate_some b0 (bs ++ rest) u hw
      have h1 := decode_utf8Of v rest hv
      have h2 := (wtf8Surrogate_utf8Of c tail hc).2.1
      rw [hu] at h1
      simp only [List.cons_append] at h1
      rw [heq, h2, Prod.mk.injEq, ← hu] at h1
      have := (utf8Of_length v).2 h1.2.symm
      have h3 := h1.1
      unfold RuneError at h3
      omega

theorem encodeWTF16From_skip (pre rest : GoString) :
    encodeWTF16From pre.length (pre ++ rest) = encodeWTF16From 0 rest := by
  induction pre with
  | nil => rfl
  | cons p ps ih => simpa [encodeWTF16From] using ih

theorem encodeWTF16_scalar (v : Nat) (rest : GoString) (hv : isScalar v) :
    encodeWTF16 (utf8Of v ++ rest) = utf16Of v ++ encodeWTF16 rest := by
  have hd := decode_utf8Of v rest hv
  have hw := wtf8Surrogate_scalar v rest hv
  have hl := (utf8Of_length v).1
  unfold encodeWTF16
  cases hu : utf8Of v with
  | nil => rw [hu] at hl; simp at hl
  | cons b0 bs =>
    rw [hu] at hd hw
    simp only [List.cons_append] at hd hw ⊢
    rw [encodeWTF16From, hd, hw, if_neg (by simp)]
    simp only [List.length_cons, Nat.add_sub_cancel]
    rw [encodeWTF16From_skip, encodeRune_scalar v hv]

theorem encodeWTF16_surrogate (c : Nat) (rest : GoString) (hc : isSurrogate c) :
    encodeWTF16 (utf8Of c ++ rest) = c :: encodeWTF16 rest := by
  obtain ⟨hw, hd, -⟩ := wtf8Surrogate_utf8Of c rest hc
  have hu := utf8Of_surrogate c hc
  unfold encodeWTF16
  rw [hu] at hw hd ⊢
  simp only [List.cons_append, List.nil_append] at hw hd ⊢
  rw [encodeWTF16From, hd, hw, if_pos (by simp)]
  simp [encodeWTF16From]

theorem encodeWTF16_invalid (b : Nat) (rest : GoString)
    (hd : DecodeRuneInString (b :: rest) = (RuneError, 1))
    (hw : wtf8Surrogate (b :: rest) = none) :
    encodeWTF16 (b :: rest) = 0xFFFD :: encodeWTF16 rest := by
  unfold encodeWTF16
  rw [encodeWTF16From, hd, hw, if_neg (by simp)]
  rfl

/-- At the front of a non-empty string stands the encoding of a scalar value, or
of a surrogate, or the decoder rejects one byte and no code point is encoded. -/
theorem wtf_cases (b : Nat) (rest : GoString) :
    (∃ v tail, isScalar v ∧ b :: rest = utf8Of v ++ tail) ∨
      (∃ c tail, isSurrogate c ∧ b :: rest = utf8Of c ++ tail) ∨
      (DecodeRuneInString (b :: rest) = (RuneError, 1) ∧ wtf8Surrogate (b :: rest) = none ∧
        ∀ v tail, v < 0x110000 → b :: rest ≠ utf8Of v ++ tail) := by
  rcases decode_cases b rest with hrej | hv
  · cases hw : wtf8Surrogate (b :: rest) with
    | some u => exact Or.inr (Or.inl (wtf8Surrogate_some b rest u hw))
    | none =>
      refine Or.inr (Or.inr ⟨hrej, rfl, ?_⟩)
      intro v tail hlt heq
      by_cases hs : isScalar v
      · exact no_scalar_of_reject b rest hrej v tail hs heq
      · have hc : isSurrogate v := by unfold isScalar at hs; unfold isSurrogate; omega
        rw [heq, (wtf8Surrogate_utf8Of v tail hc).1] at hw
        exact absurd hw (by simp)
  · exact Or.inl hv

theorem IsWTF16Of_unique (s : GoString) (us : List Nat) (h : IsWTF16Of s us) :
    us = encodeWTF16 s := by
  induction h with
  | done => rfl
  | scalar v rest us hv _ ih => rw [encodeWTF16_scalar v rest hv, ih]
  | surrogate c rest us hc _ ih => rw [encodeWTF16_surrogate c rest hc, ih]
  | invalid b rest us hno _ ih =>
    rcases wtf_cases b rest with ⟨v, tail, hv, heq⟩ | ⟨c, tail, hc, heq⟩ | ⟨hd, hw, -⟩
    · exact absurd heq (hno v tail (by unfold isScalar at hv; omega))
    · exact absurd heq (hno c tail (by unfold isSurrogate at hc; omega))
    · rw [encodeWTF16_invalid b rest hd hw, ih]

theorem IsWTF16Of_encode_aux (n : Nat) :
    ∀ s : GoString, s.length ≤ n → IsWTF16Of s (encodeWTF16 s) := by
  induction n with
  | zero =>
    intro s hs
    have : s = [] := List.length_eq_zero.mp (by omega)
    subst this
    exact IsWTF16Of.done
  | succ n ih =>
    intro s hs
    cases s with
    | nil => exact IsWTF16Of.done
    | cons b rest =>
      rcases wtf_cases b rest with ⟨v, tail, hv, heq⟩ | ⟨c, tail, hc, heq⟩ | ⟨hd, hw, hno⟩
      · rw [heq, encodeWTF16_scalar v tail hv]
        refine IsWTF16Of.scalar v tail _ hv (ih tail ?_)
        have hl := (utf8Of_length v).1
        have : (b :: rest).length = (utf8Of v).length + tail.length := by
          rw [heq, List.length_append]
        simp only [List.length_cons] at hs this
        omega
      · rw [heq, encodeWTF16_surrogate c tail hc]
        refine IsWTF16Of.surrogate c tail _ hc (ih tail ?_)
        have hl := (utf8Of_length c).1
        have : (b :: rest).length = (utf8Of c).length + tail.length := by
          rw [heq, List.length_append]
        simp only [List.length_cons] at hs this
        omega
      · rw [encodeWTF16_invalid b rest hd hw]
        exact IsWTF16Of.invalid b rest _ hno (ih rest (by simpa using hs))

/-- The library encoder yields exactly the UTF-16 code units of `s` read as
WTF-8. -/
theorem IsWTF16Of_iff (s : GoString) (us : List Nat) :
    IsWTF16Of s us ↔ us = encodeWTF16 s :=
  ⟨IsWTF16Of_unique s us, fun h => h ▸ IsWTF16Of_encode_aux s.length s (Nat.le_refl _)⟩

/-! ### Formatting of error codes -/

theorem ldigits_getD (d : Nat) (h : d < 16) : ldigits.getD d 0 = hexDigit d := by
  interval_cases d <;> rfl

theorem hexDigits_small (u : Nat) (h0 : 0 < u) (h : u < 16) : hexDigits u = [hexDigit u] := by
  unfold hexDigits
  rw [Nat.digits_def' (by norm_num) h0, Nat.mod_eq_of_lt h, Nat.div_eq_of_lt h]
  simp

theorem hexDigits_step (u : Nat) (h : 16 ≤ u) :
    hexDigits u = hexDigits (u / 16) ++ [hexDigit (u % 16)] := by
  unfold hexDigits
  rw [Nat.digits_def' (by norm_num) (by omega)]
  simp

theorem fmtHexLoop_eq (fuel : Nat) : ∀ (u : Nat) (buf : List Nat), 0 < u → u < 16 ^ (fuel + 1) →
    fmtHexLoop fuel u buf = hexDigits u ++ buf := by
  induction fuel with
  | zero =>
    intro u buf h0 h
    have h16 : u < 16 := by simpa using h
    unfold fmtHexLoop
    rw [ldigits_getD u h16, hexDigits_small u h0 h16]
    simp
  | succ n ih =>
    intro u buf h0 h
    unfold fmtHexLoop
    by_cases hu : 16 ≤ u
    · have hand : u &&& 0xF = u % 16 := Nat.and_pow_two_sub_one_eq_mod u 4
      have hshift : u >>> 4 = u / 16 := by rw [Nat.shiftRight_eq_div_pow]
      have hlt : u / 16 < 16 ^ (n + 1) := by
        rw [Nat.div_lt_iff_lt_mul (by norm_num)]
        calc u < 16 ^ (n + 1 + 1) := h
          _ = 16 ^ (n + 1) * 16 := by ring
      rw [if_pos hu, hand, hshift, ih (u / 16) _ (by omega) hlt,
        ldigits_getD _ (Nat.mod_lt _ (by norm_num)), hexDigits_step u hu]
      simp
    · have h16 : u < 16 := by omega
      rw [if_neg hu, ldigits_getD u h16, hexDigits_small u h0 h16]
      simp

theorem hexValue_hexDigit (d : Nat) (h : d < 16) : hexValue (hexDigit d) = d := by
  interval_cases d <;> rfl

theorem parseHex_map_reverse (ds : List Nat) (h : ∀ d ∈ ds, d < 16) :
    parseHex (ds.reverse.map hexDigit) = Nat.ofDigits 16 ds := by
  induction ds with
  | nil => simp [parseHex]
  | cons d ds ih =>
    have hd : d < 16 := h d (by simp)
    have ih' := ih (fun x hx => h x (by simp [hx]))
    unfold parseHex at ih' ⊢
    simp only [List.reverse_cons, List.map_append, List.foldl_append, List.map_cons, List.map_nil,
      List.foldl_cons, List.foldl_nil, ih', hexValue_hexDigit d hd, Nat.ofDigits_cons]
    ring

theorem parseHex_hexDigits (c : Nat) : parseHex (hexDigits c) = c := by
  unfold hexDigits
  rw [parseHex_map_reverse _ (fun d hd => Nat.digits_lt_base (by norm_num) hd), Nat.ofDigits_digits]

theorem hexDigits_mem (c ch : Nat) (h : ch ∈ hexDigits c) : ch ∈ lit "0123456789abcdef" := by
  unfold hexDigits at h
  simp only [List.mem_map, List.mem_reverse] at h
  obtain ⟨d, hd, rfl⟩ := h
  have : d < 16 := Nat.digits_lt_base (by norm_num) hd
  interval_cases d <;> decide

theorem hexDigits_head (c : Nat) (h : 0 < c) : (hexDigits c).head? ≠ some 48 ∧ hexDigits c ≠ [] := by
  unfold hexDigits
  have hne : Nat.digits 16 c ≠ [] := Nat.digits_ne_nil_iff_ne_zero.mpr (by omega)
  have hlast := Nat.getLast_digit_ne_zero 16 (m := c) (by omega)
  have hlt : (Nat.digits 16 c).getLast hne < 16 :=
    Nat.digits_lt_base (by norm_num) (List.getLast_mem hne)
  constructor
  · rw [List.head?_map, List.head?_reverse, List.getLast?_eq_getLast _ hne]
    simp only [Option.map_some', ne_eq, Option.some.injEq]
    generalize (Nat.digits 16 c).getLast hne = d at hlast hlt
    interval_cases d <;> simp_all [hexDigit]
  · simpa using hne

/-- C5: for an extended-error code `c > 0` (any positive `int`), the message of
`WinDlgError(c)` is `CommDlgExtendedError: 0x` followed by exactly the lowercase
hexadecimal digits of `c`, which are non-empty, do not start with `0`, and
denote `c` again; for `0x1234` it is `CommDlgExtendedError: 0x1234`. -/
theorem WinDlgError_Error_hex (c : Nat) (hpos : 0 < c) (hint : c < 2 ^ 63) :
    WinDlgError.Error (c : Int) = lit "CommDlgExtendedError: 0x" ++ hexDigits c
      ∧ (∀ ch ∈ hexDigits c, ch ∈ lit "0123456789abcdef")
      ∧ hexDigits c ≠ [] ∧ (hexDigits c).head? ≠ some 48
      ∧ parseHex ((WinDlgError.Error (c : Int)).drop (lit "CommDlgExtendedError: 0x").length) = c
      ∧ WinDlgError.Error 0x1234 = lit "CommDlgExtendedError: 0x1234" := by
  have hmain : WinDlgError.Error (c : Int) = lit "CommDlgExtendedError: 0x" ++ hexDigits c := by
    unfold WinDlgError.Error sprintfSharpX
    have hneg : ¬ ((c : Int) < 0) := by omega
    have hmod : c % 2 ^ 64 = c := Nat.mod_eq_of_lt (by omega)
    rw [if_neg hneg, Int.natAbs_ofNat, hmod, fmtHexLoop_eq 16 c [] hpos (by norm_num; omega)]
    simp [lit]
  refine ⟨hmain, hexDigits_mem c, (hexDigits_head c hpos).2, (hexDigits_head c hpos).1, ?_, by decide⟩
  rw [hmain, List.drop_left, parseHex_hexDigits]

theorem WinDlgError_Error_hex_witness :
    0 < 0x3003 ∧ 0x3003 < 2 ^ 63 ∧
      WinDlgError.Error ((0x3003 : Nat) : Int) = lit "CommDlgExtendedError: 0x" ++ hexDigits 0x3003 ∧
      parseHex ((WinDlgError.Error ((0x3003 : Nat) : Int)).drop
        (lit "CommDlgExtendedError: 0x").length) = 0x3003 :=
  ⟨by decide, by decide, (WinDlgError_Error_hex 0x3003 (by decide) (by decide)).1,
    (WinDlgError_Error_hex 0x3003 (by decide) (by decide)).2.2.2.2.1⟩

/-! ### `openfile` -/

theorem openfile_eq (w : Native) (flags : Nat) (b : FileBuilder) :
    openfile w flags b =
      if 0 ∈ b.StartFile then .error "dialog: UTF16FromString failed: invalid argument"
      else if 0 ∈ b.StartDir then .error "dialog: UTF16PtrFromString failed: invalid argument"
      else if 0 ∈ b.Dlg.Title then .error "dialog: UTF16PtrFromString failed: invalid argument"
      else .ok ({ filename := b.StartFile, opf := requestOf w flags b },
        [Call.GetForegroundWindow]) := by
  unfold openfile requestOf UTF16PtrFromString UTF16FromString _GetForegroundWindow encodeZ
  by_cases h1 : 0 ∈ b.StartFile
  · simp [h1]
  · by_cases h2 : 0 ∈ b.StartDir
    · have : b.StartDir ≠ [] := by rintro h; simp [h] at h2
      simp [h1, h2, this]
    · by_cases h3 : 0 ∈ b.Dlg.Title
      · have : b.Dlg.Title ≠ [] := by rintro h; simp [h] at h3
        by_cases h4 : b.StartDir = [] <;> simp [h1, h2, h3, h4, this]
      · by_cases h4 : b.StartDir = [] <;> by_cases h5 : b.Dlg.Title = [] <;>
          simp [h1, h2, h3, h4, h5]

theorem openfile_ok (w : Native) (flags : Nat) (b : FileBuilder) (d : filedlg)
    (calls : List Call) (hok : openfile w flags b = .ok (d, calls)) :
    d = { filename := b.StartFile, opf := requestOf w flags b } ∧
      calls = [Call.GetForegroundWindow] := by
  rw [openfile_eq] at hok
  split_ifs at hok
  simp only [Except.ok.injEq, Prod.mk.injEq] at hok
  exact ⟨hok.1.symm, hok.2.symm⟩

theorem attachFilters_fields (opf : OPENFILENAME) (filters : List Nat) :
    (attachFilters opf filters).Flags = opf.Flags ∧
      (attachFilters opf filters).InitialDir = opf.InitialDir ∧
      (attachFilters opf filters).Title = opf.Title ∧
      (attachFilters opf filters).File = opf.File := by
  unfold attachFilters
  split <;> simp

theorem foldl_appendExtension (exts : List GoString) (acc : List Nat) :
    exts.foldl appendExtension acc =
      acc ++ (exts.map fun ext =>
        utf16FromStringWithoutNullTermination (lit "*." ++ ext ++ lit ";") ++ [0]).flatten := by
  induction exts generalizing acc with
  | nil => simp
  | cons e es ih => simp [List.foldl, ih, appendExtension, List.append_assoc]

theorem appendFilter_eq (acc : List Nat) (f : FileFilter) :
    appendFilter acc f = acc ++ filterGroupSpec utf16FromStringWithoutNullTermination f := by
  simp [appendFilter, filterGroupSpec, foldl_appendExtension, List.append_assoc]

theorem foldl_appendFilter (fs : List FileFilter) (acc : List Nat) :
    fs.foldl appendFilter acc =
      acc ++ (fs.map (filterGroupSpec utf16FromStringWithoutNullTermination)).flatten := by
  induction fs generalizing acc with
  | nil => simp
  | cons f fs ih => simp [List.foldl, ih, appendFilter_eq, List.append_assoc]

theorem buildFilters_eq (fs : List FileFilter) :
    buildFilters fs = (fs.map (filterGroupSpec utf16FromStringWithoutNullTermination)).flatten := by
  simp [buildFilters, foldl_appendFilter]

theorem filterGroupSpec_length (units : GoString → List Nat) (f : FileFilter) :
    2 ≤ (filterGroupSpec units f).length := by
  simp [filterGroupSpec]; omega

theorem buildFilters_length_pos (fs : List FileFilter) (h : fs ≠ []) :
    0 < (buildFilters fs).length := by
  cases fs with
  | nil => exact absurd rfl h
  | cons f fs =>
    have := filterGroupSpec_length utf16FromStringWithoutNullTermination f
    simp [buildFilters_eq]; omega

theorem requestOf_Filter (w : Native) (flags : Nat) (b : FileBuilder) :
    (requestOf w flags b).Filter =
      if b.Filters = [] then none
      else some (filterBufferSpec utf16FromStringWithoutNullTermination b.Filters) := by
  unfold requestOf attachFilters
  by_cases h : b.Filters = []
  · simp [h, buildFilters]
  · rw [if_pos (buildFilters_length_pos _ h), if_neg h]
    simp [buildFilters_eq, filterBufferSpec]

/-- C1: when `Filters` is non-empty, the buffer that `openfile` attaches as
`opf.Filter` is exactly the reference layout, for any `units` that gives the
UTF-16 code units of a string: per filter the units of `Desc`, a 0, per extension
the units of `*.<ext>;` and a 0, a closing 0; then two final 0 units. -/
theorem openfile_filter_eq_spec (w : Native) (flags : Nat) (b : FileBuilder) (d : filedlg)
    (calls : List Call) (units : GoString → List Nat)
    (hunits : ∀ s, IsUTF16Of s (units s)) (hne : b.Filters ≠ [])
    (hok : openfile w flags b = .ok (d, calls)) :
    d.opf.Filter = some (filterBufferSpec units b.Filters) := by
  have hu : units = utf16FromStringWithoutNullTermination :=
    funext fun s => (IsUTF16Of_iff s (units s)).1 (hunits s)
  rw [(openfile_ok w flags b d calls hok).1, hu]
  simp [requestOf_Filter, hne]

theorem openfile_filter_eq_spec_witness :
    (∀ s, IsUTF16Of s (utf16FromStringWithoutNullTermination s)) ∧
      unicodeBuilder.Filters ≠ [] ∧
      openfile acceptingNative 0 unicodeBuilder =
        .ok ({ filename := [], opf := requestOf acceptingNative 0 unicodeBuilder },
          [Call.GetForegroundWindow]) ∧
      (requestOf acceptingNative 0 unicodeBuilder).Filter =
        some (filterBufferSpec utf16FromStringWithoutNullTermination unicodeBuilder.Filters) ∧
      filterBufferSpec utf16FromStringWithoutNullTermination unicodeBuilder.Filters =
        [77, 117, 115, 105, 99, 32, 70, 105, 108, 101, 0, 42, 46, 109, 112, 51, 59, 0,
          42, 46, 111, 103, 103, 59, 0, 42, 46, 119, 97, 118, 59, 0, 0,
          0x43, 0x61, 0x66, 0xE9, 0, 42, 46, 0x266B, 59, 0, 42, 46, 0xFFFD, 59, 0,
          42, 46, 0xD83D, 0xDE00, 59, 0, 0, 0, 0] :=
  ⟨fun s => (IsUTF16Of_iff s _).2 rfl, by decide, rfl,
    openfile_filter_eq_spec acceptingNative 0 unicodeBuilder
      { filename := [], opf := requestOf acceptingNative 0 unicodeBuilder }
      [Call.GetForegroundWindow] utf16FromStringWithoutNullTermination
      (fun s => (IsUTF16Of_iff s _).2 rfl) (by decide) rfl,
    by decide⟩

/-- C6: when `openfile` returns, `opf.Filter` is nil exactly when `Filters` is the
empty list (empty descriptions or extension lists do not matter), and a buffer
that is attached has at least two units, the last two of which are 0. -/
theorem openfile_filter_nil_iff (w : Native) (flags : Nat) (b : FileBuilder) (d : filedlg)
    (calls : List Call) (hok : openfile w flags b = .ok (d, calls)) :
    (d.opf.Filter = none ↔ b.Filters = []) ∧
      ∀ buf, d.opf.Filter = some buf →
        2 ≤ buf.length ∧ buf.drop (buf.length - 2) = [0, 0] := by
  rw [(openfile_ok w flags b d calls hok).1]
  simp only [requestOf_Filter]
  by_cases h : b.Filters = []
  · simp [h]
  · simp only [h, if_false, Option.some.injEq, iff_self, true_and, reduceCtorEq]
    intro buf hbuf
    subst hbuf
    unfold filterBufferSpec
    constructor
    · simp
    · have : ((List.map (filterGroupSpec utf16FromStringWithoutNullTermination)
            b.Filters).flatten ++ [0, 0]).length - 2 =
          (List.map (filterGroupSpec utf16FromStringWithoutNullTermination)
            b.Filters).flatten.length := by simp
      rw [this, List.drop_left]

theorem openfile_filter_nil_iff_witness :
    openfile acceptingNative 0 { emptyBuilder with Filters := [{ Desc := [], Extensions := [] }] } =
        .ok ({ filename := [],
               opf := requestOf acceptingNative 0
                 { emptyBuilder with Filters := [{ Desc := [], Extensions := [] }] } },
          [Call.GetForegroundWindow]) ∧
      (requestOf acceptingNative 0
        { emptyBuilder with Filters := [{ Desc := [], Extensions := [] }] }).Filter =
          some [0, 0, 0, 0] ∧
      ((requestOf acceptingNative 0
          { emptyBuilder with Filters := [{ Desc := [], Extensions := [] }] }).Filter = none ↔
        [({ Desc := [], Extensions := [] } : FileFilter)] = []) :=
  ⟨rfl, by decide,
    (openfile_filter_nil_iff acceptingNative 0
      { emptyBuilder with Filters := [{ Desc := [], Extensions := [] }] }
      { filename := [],
        opf := requestOf acceptingNative 0
          { emptyBuilder with Filters := [{ Desc := [], Extensions := [] }] } }
      [Call.GetForegroundWindow] rfl).1⟩

/-! ### `load` and `save` -/

theorem intOfUint32_eq (e : Nat) : intOfUint32 e = ((e % 2 ^ 32 : Nat) : Int) := by
  unfold intOfUint32
  have h : e % 2 ^ 32 < 2 ^ 32 := Nat.mod_lt _ (by norm_num)
  have h2 : e % 2 ^ 32 % 2 ^ 64 = e % 2 ^ 32 := Nat.mod_eq_of_lt (by omega)
  rw [h2, if_pos (by omega)]

theorem err_eq (w : Native) :
    err w =
      (if (CommDlgExtendedError w).1 = 0 then GoError.ErrCancelled
        else GoError.WinDlgError (((CommDlgExtendedError w).1 : Nat) : Int),
       [Call.CommDlgExtendedError]) := by
  have hmod : (CommDlgExtendedError w).1 % 2 ^ 32 = (CommDlgExtendedError w).1 := by
    simp [CommDlgExtendedError]
  unfold err
  simp only [intOfUint32_eq, hmod]
  split_ifs <;> rfl

/-- C2: evaluation at the failing input. The start file is `a.txt`; the native
call succeeds and leaves `b.txt`, NUL-terminated, in the buffer `opf.File`;
`load` and `save` return `a.txt`, the field `filename` set before the call. -/
theorem load_save_return_StartFile :
    acceptingNative.getOpenFileName (requestOf acceptingNative 0x1008 musicBuilder) =
        (true, utf16FromStringWithoutNullTermination (lit "b.txt") ++ [0]) ∧
      load acceptingNative musicBuilder =
        .ok ((lit "a.txt", none),
          [Call.GetForegroundWindow,
            Call.GetOpenFileName (requestOf acceptingNative 0x1008 musicBuilder)]) ∧
      save acceptingNative musicBuilder =
        .ok ((lit "a.txt", none),
          [Call.GetForegroundWindow,
            Call.GetSaveFileName (requestOf acceptingNative 0xa musicBuilder)]) ∧
      lit "a.txt" ≠ lit "b.txt" :=
  ⟨by decide, rfl, rfl, by decide⟩

/-- C3: when `openfile` has returned the dialog and the native call on it reports
failure, `load` and `save` return the empty path with `ErrCancelled` if the
extended-error code is 0 and with `WinDlgError` of exactly that code otherwise;
the code is queried once then, and not at all when the native call succeeds. -/
theorem load_save_failure (w : Native) (b : FileBuilder) (dl ds : filedlg)
    (cl cs : List Call)
    (hl : openfile w (OFN_FILEMUSTEXIST ||| OFN_NOCHANGEDIR) b = .ok (dl, cl))
    (hs : openfile w (OFN_OVERWRITEPROMPT ||| OFN_NOCHANGEDIR) b = .ok (ds, cs)) :
    ((w.getOpenFileName dl.opf).1 = false →
        load w b = .ok (([], some (if (CommDlgExtendedError w).1 = 0 then GoError.ErrCancelled
            else GoError.WinDlgError (((CommDlgExtendedError w).1 : Nat) : Int))),
          [Call.GetForegroundWindow, Call.GetOpenFileName dl.opf, Call.CommDlgExtendedError])) ∧
      ((w.getSaveFileName ds.opf).1 = false →
        save w b = .ok (([], some (if (CommDlgExtendedError w).1 = 0 then GoError.ErrCancelled
            else GoError.WinDlgError (((CommDlgExtendedError w).1 : Nat) : Int))),
          [Call.GetForegroundWindow, Call.GetSaveFileName ds.opf, Call.CommDlgExtendedError])) ∧
      ((w.getOpenFileName dl.opf).1 = true →
        ∃ path, load w b = .ok ((path, none),
          [Call.GetForegroundWindow, Call.GetOpenFileName dl.opf])) ∧
      ((w.getSaveFileName ds.opf).1 = true →
        ∃ path, save w b = .ok ((path, none),
          [Call.GetForegroundWindow, Call.GetSaveFileName ds.opf])) ∧
      ((CommDlgExtendedError w).1 ≠ 0 →
        (if (CommDlgExtendedError w).1 = 0 then GoError.ErrCancelled
          else GoError.WinDlgError (((CommDlgExtendedError w).1 : Nat) : Int)) ≠
            GoError.ErrCancelled) ∧
      [Call.GetForegroundWindow, Call.GetOpenFileName dl.opf,
          Call.CommDlgExtendedError].count Call.CommDlgExtendedError = 1 ∧
      [Call.GetForegroundWindow, Call.GetSaveFileName ds.opf,
          Call.CommDlgExtendedError].count Call.CommDlgExtendedError = 1 ∧
      [Call.GetForegroundWindow, Call.GetOpenFileName dl.opf].count
          Call.CommDlgExtendedError = 0 ∧
      [Call.GetForegroundWindow, Call.GetSaveFileName ds.opf].count
          Call.CommDlgExtendedError = 0 := by
  have hcl := (openfile_ok _ _ _ _ _ hl).2
  have hcs := (openfile_ok _ _ _ _ _ hs).2
  subst hcl hcs
  refine ⟨?_, ?_, ?_, ?_, ?_, ?_, ?_, ?_, ?_⟩
  · intro hf
    simp [load, hl, hf, err_eq]
  · intro hf
    simp [save, hs, hf, err_eq]
  · intro ht
    exact ⟨dl.Filename, by simp [load, hl, ht, filedlg.Filename]⟩
  · intro ht
    exact ⟨ds.Filename, by simp [save, hs, ht, filedlg.Filename]⟩
  · intro hc
    simp [hc]
  · simp [List.count_cons]
  · simp [List.count_cons]
  · simp [List.count_cons]
  · simp [List.count_cons]

theorem load_save_failure_witness :
    load (failingNative 0x3003) musicBuilder =
        .ok (([], some (GoError.WinDlgError 0x3003)),
          [Call.GetForegroundWindow,
            Call.GetOpenFileName (requestOf (failingNative 0x3003) 0x1008 musicBuilder),
            Call.CommDlgExtendedError]) ∧
      save (failingNative 0) musicBuilder =
        .ok (([], some GoError.ErrCancelled),
          [Call.GetForegroundWindow,
            Call.GetSaveFileName (requestOf (failingNative 0) 0xa musicBuilder),
            Call.CommDlgExtendedError]) :=
  ⟨(load_save_failure (failingNative 0x3003) musicBuilder
      { filename := lit "a.txt", opf := requestOf (failingNative 0x3003) 0x1008 musicBuilder }
      { filename := lit "a.txt", opf := requestOf (failingNative 0x3003) 0xa musicBuilder }
      [Call.GetForegroundWindow] [Call.GetForegroundWindow] rfl rfl).1 rfl,
    (load_save_failure (failingNative 0) musicBuilder
      { filename := lit "a.txt", opf := requestOf (failingNative 0) 0x1008 musicBuilder }
      { filename := lit "a.txt", opf := requestOf (failingNative 0) 0xa musicBuilder }
      [Call.GetForegroundWindow] [Call.GetForegroundWindow] rfl rfl).2.1 rfl⟩

theorem load_cases (w : Native) (b : FileBuilder) (r : Result) (calls : List Call)
    (h : load w b = .ok (r, calls)) :
    (r = (b.StartFile, none) ∧
        calls = [Call.GetForegroundWindow,
          Call.GetOpenFileName (requestOf w (OFN_FILEMUSTEXIST ||| OFN_NOCHANGEDIR) b)]) ∨
      (r = ([], some (err w).1) ∧
        calls = [Call.GetForegroundWindow,
          Call.GetOpenFileName (requestOf w (OFN_FILEMUSTEXIST ||| OFN_NOCHANGEDIR) b),
          Call.CommDlgExtendedError]) := by
  unfold load at h
  rw [openfile_eq] at h
  split_ifs at h
  simp only at h
  split_ifs at h <;>
    simp only [Except.ok.injEq, Prod.mk.injEq] at h <;>
    obtain ⟨rfl, rfl⟩ := h
  · left; simp [filedlg.Filename]
  · right; simp [err_eq]

theorem save_cases (w : Native) (b : FileBuilder) (r : Result) (calls : List Call)
    (h : save w b = .ok (r, calls)) :
    (r = (b.StartFile, none) ∧
        calls = [Call.GetForegroundWindow,
          Call.GetSaveFileName (requestOf w (OFN_OVERWRITEPROMPT ||| OFN_NOCHANGEDIR) b)]) ∨
      (r = ([], some (err w).1) ∧
        calls = [Call.GetForegroundWindow,
          Call.GetSaveFileName (requestOf w (OFN_OVERWRITEPROMPT ||| OFN_NOCHANGEDIR) b),
          Call.CommDlgExtendedError]) := by
  unfold save at h
  rw [openfile_eq] at h
  split_ifs at h
  simp only at h
  split_ifs at h <;>
    simp only [Except.ok.injEq, Prod.mk.injEq] at h <;>
    obtain ⟨rfl, rfl⟩ := h
  · left; simp [filedlg.Filename]
  · right; simp [err_eq]

theorem err_cases (w : Native) :
    (err w).1 = GoError.ErrCancelled ∨ ∃ e : Int, e ≠ 0 ∧ (err w).1 = GoError.WinDlgError e := by
  rw [err_eq]
  by_cases h : (CommDlgExtendedError w).1 = 0
  · left; simp [h]
  · right
    exact ⟨(((CommDlgExtendedError w).1 : Nat) : Int), by exact_mod_cast h, by simp [h]⟩

/-- C4, counterexample: `browse` returns the empty path with a nil error when the
folder dialog returns an item for which `SHGetPathFromIDList` yields the empty
path, and `load` does so when `StartFile` is empty and the native call reports
success. -/
theorem empty_path_nil_error :
    confirmingNative.shBrowseForFolder
        (selectdir confirmingNative { Dlg := { Title := [] }, StartDir := [] }).1.bi = 1 ∧
      confirmingNative.shGetPathFromIDList 1 = [] ∧
      (browse confirmingNative { Dlg := { Title := [] }, StartDir := [] }).1 = ([], none) ∧
      load confirmingNative emptyBuilder =
        .ok (([], none),
          [Call.GetForegroundWindow,
            Call.GetOpenFileName (requestOf confirmingNative 0x1008 emptyBuilder)]) :=
  ⟨rfl, rfl, rfl, rfl⟩

/-- C4, amended: every result of `load`, `save` and `browse` has a nil error, or
the empty path with a non-nil error, which is `ErrCancelled` or a `WinDlgError`
of a non-zero code (`ErrCancelled` only, for `browse`); a non-nil error never
comes with a non-empty path. -/
theorem error_implies_empty_path (w : Native) :
    (∀ b r calls, load w b = .ok (r, calls) →
        (r.2 = none ∨ (r.1 = [] ∧ (r.2 = some GoError.ErrCancelled ∨
          ∃ e : Int, e ≠ 0 ∧ r.2 = some (GoError.WinDlgError e)))) ∧
        ¬ (r.1 ≠ [] ∧ r.2 ≠ none)) ∧
      (∀ b r calls, save w b = .ok (r, calls) →
        (r.2 = none ∨ (r.1 = [] ∧ (r.2 = some GoError.ErrCancelled ∨
          ∃ e : Int, e ≠ 0 ∧ r.2 = some (GoError.WinDlgError e)))) ∧
        ¬ (r.1 ≠ [] ∧ r.2 ≠ none)) ∧
      (∀ b, ((browse w b).1.2 = none ∨
          ((browse w b).1.1 = [] ∧ (browse w b).1.2 = some GoError.ErrCancelled)) ∧
        ¬ ((browse w b).1.1 ≠ [] ∧ (browse w b).1.2 ≠ none)) := by
  refine ⟨?_, ?_, ?_⟩
  · intro b r calls h
    rcases load_cases w b r calls h with ⟨rfl, -⟩ | ⟨rfl, -⟩
    · simp
    · rcases err_cases w with he | ⟨e, he0, he⟩
      · simp [he]
      · refine ⟨Or.inr ⟨rfl, Or.inr ⟨e, he0, ?_⟩⟩, ?_⟩
        · simp [he]
        · simp
  · intro b r calls h
    rcases save_cases w b r calls h with ⟨rfl, -⟩ | ⟨rfl, -⟩
    · simp
    · rcases err_cases w with he | ⟨e, he0, he⟩
      · simp [he]
      · refine ⟨Or.inr ⟨rfl, Or.inr ⟨e, he0, ?_⟩⟩, ?_⟩
        · simp [he]
        · simp
  · intro b
    unfold browse
    by_cases h : w.shBrowseForFolder (selectdir w b).1.bi = 0
    · simp [h]
    · simp [h]

theorem error_implies_empty_path_witness :
    load (failingNative 0x3003) musicBuilder =
        .ok (([], some (GoError.WinDlgError 0x3003)),
          [Call.GetForegroundWindow,
            Call.GetOpenFileName (requestOf (failingNative 0x3003) 0x1008 musicBuilder),
            Call.CommDlgExtendedError]) ∧
      ¬ ((([] : GoString), some (GoError.WinDlgError 0x3003)).1 ≠ [] ∧
        (([] : GoString), some (GoError.WinDlgError 0x3003)).2 ≠ none) :=
  ⟨rfl,
    ((error_implies_empty_path (failingNative 0x3003)).1 musicBuilder
      ([], some (GoError.WinDlgError 0x3003))
      [Call.GetForegroundWindow,
        Call.GetOpenFileName (requestOf (failingNative 0x3003) 0x1008 musicBuilder),
        Call.CommDlgExtendedError] rfl).2⟩

/-- C7: the request that `load` passes to `GetOpenFileName` has `Flags` equal to
`OFN_FILEMUSTEXIST | OFN_NOCHANGEDIR` and the one `save` passes to
`GetSaveFileName` has `OFN_OVERWRITEPROMPT | OFN_NOCHANGEDIR`, whatever the
builder holds: both have the no-change-dir bit, `load` has the file-must-exist
bit and not the overwrite-prompt bit, `save` the reverse. -/
theorem load_save_flags (w : Native) (b : FileBuilder) :
    (∀ r calls, load w b = .ok (r, calls) →
        ∃ opf rest, calls = Call.GetForegroundWindow :: Call.GetOpenFileName opf :: rest ∧
          (rest = [] ∨ rest = [Call.CommDlgExtendedError]) ∧
          opf.Flags = OFN_FILEMUSTEXIST ||| OFN_NOCHANGEDIR ∧
          opf.Flags &&& OFN_NOCHANGEDIR = OFN_NOCHANGEDIR ∧
          opf.Flags &&& OFN_FILEMUSTEXIST = OFN_FILEMUSTEXIST ∧
          opf.Flags &&& OFN_OVERWRITEPROMPT = 0) ∧
      (∀ r calls, save w b = .ok (r, calls) →
        ∃ opf rest, calls = Call.GetForegroundWindow :: Call.GetSaveFileName opf :: rest ∧
          (rest = [] ∨ rest = [Call.CommDlgExtendedError]) ∧
          opf.Flags = OFN_OVERWRITEPROMPT ||| OFN_NOCHANGEDIR ∧
          opf.Flags &&& OFN_NOCHANGEDIR = OFN_NOCHANGEDIR ∧
          opf.Flags &&& OFN_OVERWRITEPROMPT = OFN_OVERWRITEPROMPT ∧
          opf.Flags &&& OFN_FILEMUSTEXIST = 0) := by
  have hF : ∀ flags, (requestOf w flags b).Flags = flags % 2 ^ 32 := by
    intro flags
    unfold requestOf
    rw [(attachFilters_fields _ _).1]
  constructor
  · intro r calls h
    rcases load_cases w b r calls h with ⟨-, rfl⟩ | ⟨-, rfl⟩
    · exact ⟨_, [], rfl, Or.inl rfl, by rw [hF]; decide, by rw [hF]; decide,
        by rw [hF]; decide, by rw [hF]; decide⟩
    · exact ⟨_, [Call.CommDlgExtendedError], rfl, Or.inr rfl, by rw [hF]; decide,
        by rw [hF]; decide, by rw [hF]; decide, by rw [hF]; decide⟩
  · intro r calls h
    rcases save_cases w b r calls h with ⟨-, rfl⟩ | ⟨-, rfl⟩
    · exact ⟨_, [], rfl, Or.inl rfl, by rw [hF]; decide, by rw [hF]; decide,
        by rw [hF]; decide, by rw [hF]; decide⟩
    · exact ⟨_, [Call.CommDlgExtendedError], rfl, Or.inr rfl, by rw [hF]; decide,
        by rw [hF]; decide, by rw [hF]; decide, by rw [hF]; decide⟩

theorem load_save_flags_witness :
    ∃ opf rest,
      [Call.GetForegroundWindow,
        Call.GetOpenFileName (requestOf acceptingNative 0x1008 musicBuilder)] =
          Call.GetForegroundWindow :: Call.GetOpenFileName opf :: rest ∧
        (rest = [] ∨ rest = [Call.CommDlgExtendedError]) ∧
        opf.Flags = OFN_FILEMUSTEXIST ||| OFN_NOCHANGEDIR ∧
        opf.Flags &&& OFN_NOCHANGEDIR = OFN_NOCHANGEDIR ∧
        opf.Flags &&& OFN_FILEMUSTEXIST = OFN_FILEMUSTEXIST ∧
        opf.Flags &&& OFN_OVERWRITEPROMPT = 0 :=
  (load_save_flags acceptingNative musicBuilder).1 (lit "a.txt", none)
    [Call.GetForegroundWindow,
      Call.GetOpenFileName (requestOf acceptingNative 0x1008 musicBuilder)] rfl

/-! ### Encoding failures -/

theorem UTF16FromString_error_iff (s : GoString) :
    (∃ e, UTF16FromString s = .error e) ↔ 0 ∈ s := by
  unfold UTF16FromString
  by_cases h : 0 ∈ s <;> simp [h]

theorem UTF16PtrFromString_error_iff (s : GoString) :
    (∃ e, UTF16PtrFromString s = .error e) ↔ 0 ∈ s := by
  unfold UTF16PtrFromString UTF16FromString
  by_cases h : 0 ∈ s <;> simp [h]

theorem ptrIgnoringError_eq (s : GoString) :
    ptrIgnoringError s = if 0 ∈ s then none else some (encodeZ s) := by
  unfold ptrIgnoringError UTF16PtrFromString UTF16FromString encodeZ
  by_cases h : 0 ∈ s <;> simp [h]

/-- C9: `openfile` panics exactly when `UTF16FromString` fails for `StartFile`, or
`UTF16PtrFromString` fails for a non-empty `StartDir` or a non-empty title, and
these fail exactly on a string with a NUL byte; in every other case, whatever the
bytes and whatever the filters hold, it returns a dialog in which `InitialDir` and
`Title` are set exactly when `StartDir` and the title are non-empty. -/
theorem openfile_panics_iff (w : Native) (flags : Nat) (b : FileBuilder) :
    ((∃ msg, openfile w flags b = .error msg) ↔
        ((∃ e, UTF16FromString b.StartFile = .error e) ∨
          (b.StartDir ≠ [] ∧ ∃ e, UTF16PtrFromString b.StartDir = .error e) ∨
          (b.Dlg.Title ≠ [] ∧ ∃ e, UTF16PtrFromString b.Dlg.Title = .error e))) ∧
      (∀ s, (∃ e, UTF16FromString s = .error e) ↔ 0 ∈ s) ∧
      (∀ s, (∃ e, UTF16PtrFromString s = .error e) ↔ 0 ∈ s) ∧
      (¬ ((∃ e, UTF16FromString b.StartFile = .error e) ∨
          (b.StartDir ≠ [] ∧ ∃ e, UTF16PtrFromString b.StartDir = .error e) ∨
          (b.Dlg.Title ≠ [] ∧ ∃ e, UTF16PtrFromString b.Dlg.Title = .error e)) →
        ∃ d calls, openfile w flags b = .ok (d, calls) ∧
          (d.opf.InitialDir ≠ none ↔ b.StartDir ≠ []) ∧
          (d.opf.Title ≠ none ↔ b.Dlg.Title ≠ [])) := by
  have hne : ∀ s : GoString, 0 ∈ s → s ≠ [] := by
    rintro s hs rfl
    simp at hs
  refine ⟨?_, UTF16FromString_error_iff, UTF16PtrFromString_error_iff, ?_⟩
  · rw [openfile_eq, UTF16FromString_error_iff, UTF16PtrFromString_error_iff,
      UTF16PtrFromString_error_iff]
    by_cases h1 : 0 ∈ b.StartFile
    · simp [h1]
    · by_cases h2 : 0 ∈ b.StartDir
      · simp [h1, h2, hne _ h2]
      · by_cases h3 : 0 ∈ b.Dlg.Title
        · simp [h1, h2, h3, hne _ h3]
        · simp [h1, h2, h3]
  · rw [UTF16FromString_error_iff, UTF16PtrFromString_error_iff, UTF16PtrFromString_error_iff]
    intro h
    have h1 : 0 ∉ b.StartFile := fun hx => h (Or.inl hx)
    have h2 : 0 ∉ b.StartDir := fun hx => h (Or.inr (Or.inl ⟨hne _ hx, hx⟩))
    have h3 : 0 ∉ b.Dlg.Title := fun hx => h (Or.inr (Or.inr ⟨hne _ hx, hx⟩))
    refine ⟨{ filename := b.StartFile, opf := requestOf w flags b },
      [Call.GetForegroundWindow], ?_, ?_, ?_⟩
    · rw [openfile_eq]; simp [h1, h2, h3]
    · unfold requestOf
      rw [(attachFilters_fields _ _).2.1]
      by_cases h4 : b.StartDir = [] <;> simp [h4]
    · unfold requestOf
      rw [(attachFilters_fields _ _).2.2.1]
      by_cases h5 : b.Dlg.Title = [] <;> simp [h5]

theorem openfile_panics_iff_witness :
    ∃ d calls,
      openfile acceptingNative 0
          { Dlg := { Title := [] }, StartDir := [0xC3], StartFile := [0xFF, 0x61],
            Filters := [{ Desc := [0x61, 0, 0x62], Extensions := [[0]] }] } = .ok (d, calls) ∧
        (d.opf.InitialDir ≠ none ↔ ([0xC3] : GoString) ≠ []) ∧
        (d.opf.Title ≠ none ↔ ([] : GoString) ≠ []) :=
  (openfile_panics_iff acceptingNative 0
    { Dlg := { Title := [] }, StartDir := [0xC3], StartFile := [0xFF, 0x61],
      Filters := [{ Desc := [0x61, 0, 0x62], Extensions := [[0]] }] }).2.2.2
    (by simp [UTF16FromString, UTF16PtrFromString])

/-! ### Directory dialog -/

/-- C8, counterexample: with the non-empty starting directory `a\\0b` the
callback is installed although `LParam` stays zero: the encoding fails, the error
is dropped, and no encoded starting directory exists to point to. -/
theorem selectdir_nul_StartDir :
    ({ Dlg := { Title := [] }, StartDir := [0x61, 0, 0x62] } : DirectoryBuilder).StartDir ≠ [] ∧
      (selectdir acceptingNative
        { Dlg := { Title := [] }, StartDir := [0x61, 0, 0x62] }).1.bi.CallbackFunc =
          some Callback.callbackDefaultDir ∧
      (selectdir acceptingNative
        { Dlg := { Title := [] }, StartDir := [0x61, 0, 0x62] }).1.bi.LParam = none ∧
      UTF16PtrFromString [0x61, 0, 0x62] = .error "invalid argument" :=
  ⟨by decide, rfl, rfl, rfl⟩

/-- C8, amended: for a non-empty `StartDir`, `selectdir` installs
`callbackDefaultDir`, and `LParam` is the pointer to the encoded starting directory
(what `UTF16PtrFromString` returns: the UTF-16 code units of `StartDir` read as
WTF-8, and a final 0) if `StartDir` has no NUL byte and zero if it has one; for an
empty `StartDir` no
callback is installed and `LParam` is zero. `callbackDefaultDir` at
`bffm_INITIALIZED` sends the one message `bffm_SETSELECTION` to `hwnd` with
`wParam` `TRUE` and `lParam` `lpData`, at any other message sends nothing, and
returns 0 in every case. -/
theorem selectdir_callback (w : Native) (b : DirectoryBuilder) :
    (b.StartDir ≠ [] →
        (selectdir w b).1.bi.CallbackFunc = some Callback.callbackDefaultDir ∧
        (0 ∉ b.StartDir →
          UTF16PtrFromString b.StartDir = .ok (some (encodeZ b.StartDir)) ∧
          (selectdir w b).1.bi.LParam = some (encodeZ b.StartDir) ∧
          ∀ us, IsWTF16Of b.StartDir us ↔ encodeZ b.StartDir = us ++ [0]) ∧
        (0 ∈ b.StartDir → (selectdir w b).1.bi.LParam = none)) ∧
      (b.StartDir = [] →
        (selectdir w b).1.bi.CallbackFunc = none ∧ (selectdir w b).1.bi.LParam = none) ∧
      (∀ hwnd lParam lpData,
        callbackDefaultDir hwnd bffm_INITIALIZED lParam lpData =
          (0, [Call.SendMessage hwnd bffm_SETSELECTION TRUE lpData])) ∧
      (∀ hwnd msg lParam lpData, msg ≠ bffm_INITIALIZED →
        callbackDefaultDir hwnd msg lParam lpData = (0, [])) ∧
      (∀ hwnd msg lParam lpData, (callbackDefaultDir hwnd msg lParam lpData).1 = 0) := by
  refine ⟨?_, ?_, ?_, ?_, ?_⟩
  · intro h
    have hcb : (selectdir w b).1.bi.CallbackFunc = some Callback.callbackDefaultDir := by
      unfold selectdir; simp [h]
    have hlp : (selectdir w b).1.bi.LParam = ptrIgnoringError b.StartDir := by
      unfold selectdir; simp [h]
    refine ⟨hcb, ?_, ?_⟩
    · intro h0
      refine ⟨?_, ?_, ?_⟩
      · unfold UTF16PtrFromString UTF16FromString encodeZ
        simp [h0]
      · rw [hlp, ptrIgnoringError_eq]; simp [h0]
      · intro us
        rw [IsWTF16Of_iff]
        unfold encodeZ
        constructor
        · rintro rfl; rfl
        · intro he; exact (List.append_cancel_right he).symm
    · intro h0
      rw [hlp, ptrIgnoringError_eq]; simp [h0]
  · intro h
    unfold selectdir
    by_cases ht : b.Dlg.Title = [] <;> simp [h, ht]
  · intro hwnd lParam lpData
    simp [callbackDefaultDir]
  · intro hwnd msg lParam lpData hmsg
    simp [callbackDefaultDir, hmsg]
  · intro hwnd msg lParam lpData
    unfold callbackDefaultDir
    split <;> rfl

theorem selectdir_callback_witness :
    (selectdir acceptingNative
        { Dlg := { Title := lit "Pick" },
          StartDir := [67, 58, 92, 0xC3, 0xA9, 0xED, 0xB0, 0x80] }).1.bi.CallbackFunc =
          some Callback.callbackDefaultDir ∧
      (selectdir acceptingNative
        { Dlg := { Title := lit "Pick" },
          StartDir := [67, 58, 92, 0xC3, 0xA9, 0xED, 0xB0, 0x80] }).1.bi.LParam =
          some (encodeZ [67, 58, 92, 0xC3, 0xA9, 0xED, 0xB0, 0x80]) ∧
      encodeZ [67, 58, 92, 0xC3, 0xA9, 0xED, 0xB0, 0x80] = [67, 58, 92, 0xE9, 0xDC00, 0] ∧
      callbackDefaultDir 7 2 0 (some [67, 58, 92, 0xE9, 0xDC00, 0]) = (0, []) :=
  ⟨((selectdir_callback acceptingNative
      { Dlg := { Title := lit "Pick" },
        StartDir := [67, 58, 92, 0xC3, 0xA9, 0xED, 0xB0, 0x80] }).1 (by decide)).1,
    (((selectdir_callback acceptingNative
      { Dlg := { Title := lit "Pick" },
        StartDir := [67, 58, 92, 0xC3, 0xA9, 0xED, 0xB0, 0x80] }).1 (by decide)).2.1
          (by decide)).2.1,
    by decide,
    (selectdir_callback acceptingNative
      { Dlg := { Title := lit "Pick" },
        StartDir := [67, 58, 92, 0xC3, 0xA9, 0xED, 0xB0, 0x80] }).2.2.2.1 7 2 0
      (some [67, 58, 92, 0xE9, 0xDC00, 0]) (by decide)⟩

/-! ### The filter group of the comment -/

/-- C10: evaluation at the failing input. For the filter of the comment,
`Music File` with `mp3`, `ogg`, `wav`, the group that `openfile` emits has a 0
after every extension and one more 0, so a reader who splits at 0 units finds
three pattern strings and an empty string after the description; the form of the
comment has one pattern string `*.mp3;*.ogg;*.wav;`. -/
theorem openfile_music_filter_group :
    openfile acceptingNative 0 { emptyBuilder with Filters := [musicFilter] } =
        .ok ({ filename := [],
               opf := requestOf acceptingNative 0 { emptyBuilder with Filters := [musicFilter] } },
          [Call.GetForegroundWindow]) ∧
      (requestOf acceptingNative 0 { emptyBuilder with Filters := [musicFilter] }).Filter =
        some (lit "Music File" ++ [0] ++ lit "*.mp3;" ++ [0] ++ lit "*.ogg;" ++ [0] ++
          lit "*.wav;" ++ [0] ++ [0] ++ [0, 0]) ∧
      appendFilter [] musicFilter =
        lit "Music File" ++ [0] ++ lit "*.mp3;" ++ [0] ++ lit "*.ogg;" ++ [0] ++
          lit "*.wav;" ++ [0] ++ [0] ∧
      filterGroupComment musicFilter = lit "Music File" ++ [0] ++ lit "*.mp3;*.ogg;*.wav;" ++ [0] ∧
      appendFilter [] musicFilter ≠ filterGroupComment musicFilter ∧
      splitAtNul (appendFilter [] musicFilter) =
        [lit "Music File", lit "*.mp3;", lit "*.ogg;", lit "*.wav;", []] ∧
      splitAtNul (filterGroupComment musicFilter) =
        [lit "Music File", lit "*.mp3;*.ogg;*.wav;"] :=
  ⟨rfl, by decide, by decide, by decide, by decide, by decide, by decide⟩

end Dialog
